import Mathlib

/-!
# FormElementMixin: a shallow embedding

The development embeds `src/FormElementMixin.js` as pure state-passing functions.

* The host element's state is the record `Host`: its content attributes, the private
  fields `#inputNode`, `#invalid`, `#internals`, the public properties `pristine` and
  `validationError`, and a chronological log of the effects the class produces
  (`dispatchEvent` calls, `reportValidity` calls, `setValidity` calls, diagnostics).
* A JavaScript method that can throw returns `Except Host Host`: `.ok s` is normal
  completion in state `s`, `.error s` is an exception raised in state `s` (mutations made
  before the throw persist, as they do in JavaScript).
* What the browser computes for the inner `<input>` (its `ValidityState` snapshot and its
  native validation message) and whether the host is a candidate for constraint validation
  are the fields of `Platform`, over which every theorem quantifies.
* The DOM attribute API and `ElementInternals` follow the DOM and HTML standards:
  attribute names are ASCII-lower-cased by `getAttribute`, `hasAttribute`, `setAttribute`
  and `removeAttribute`; `setAttribute` converts its value to a string; a change of an
  observed attribute runs `attributeChangedCallback` synchronously; `setValidity` replaces
  all validity flags, ignores unknown dictionary members and throws a `TypeError` when a
  flag is true and the message is missing or empty; `checkValidity` and `reportValidity`
  fire a cancelable `invalid` event at a candidate host whose flags are not all false.
* The inner control is an `<input>`: its `value` property follows the HTML standard. The
  `type` attribute selects the mode of the property; in the value mode an assignment
  stores the string the value sanitization algorithm returns and sets the dirty value
  flag, and a control whose dirty value flag is false takes its value from its `value`
  content attribute; in the default modes the property reflects the `value` content
  attribute; a file control holds the string that stands for its selected files and
  accepts only the empty string. The value sanitization algorithm is a field of
  `Platform`. Two things are not modelled: the exception a file control throws when a
  non-empty string is assigned, and the sanitization a later change of the `type`
  attribute would run again on a stored value.
* The native report of `reportValidity` is recorded as the effect `nativeReport`; the
  focus change it may cause is not modelled.
* A `setValidity` call is logged when it is made, whether or not the platform accepts it.
* The listeners the class registers are attached in `set inputNode`; the model runs them
  exactly when `#inputNode` is set, so it covers hosts bound at most once.
-/

namespace FormElementMixin

/-! ## JavaScript values and DOM attributes -/

/-- The JavaScript values the attribute replay of `set inputNode` handles: `null`, a
boolean (from `hasAttribute`) or a string (from `getAttribute`). -/
inductive JSValue where
  | null
  | bool (b : Bool)
  | string (s : String)
deriving DecidableEq, Repr

/-- JavaScript `ToString`, as applied by `setAttribute` and by template literals. -/
def JSValue.toString : JSValue → String
  | .null => "null"
  | .bool true => "true"
  | .bool false => "false"
  | .string s => s

/-- JavaScript truthiness (`!v` is its negation). -/
def JSValue.truthy : JSValue → Bool
  | .null => false
  | .bool b => b
  | .string s => decide (s ≠ "")

/-- The result of `getAttribute` as a JavaScript value. -/
def JSValue.ofOption : Option String → JSValue
  | none => .null
  | some s => .string s

/-- ASCII lower-casing of one character. -/
def asciiLowerChar (c : Char) : Char :=
  if 65 ≤ c.toNat ∧ c.toNat ≤ 90 then Char.ofNat (c.toNat + 32) else c

/-- ASCII lower-casing of a string: what the DOM applies to a qualified attribute name on an
HTML element, and what `toLowerCase` does on the ASCII names of `observedAttributes`. -/
def asciiLower (s : String) : String := String.mk (s.data.map asciiLowerChar)

/-- The content attributes of an element, as name/value pairs. -/
abbrev Attrs := List (String × String)

/-- Value of the first attribute stored under the exact name `n`. -/
def attrGet : Attrs → String → Option String
  | [], _ => none
  | (k, v) :: rest, n => if k = n then some v else attrGet rest n

/-- Change the attribute stored under `n` in place, or append it. -/
def attrSet : Attrs → String → String → Attrs
  | [], n, v => [(n, v)]
  | (k, w) :: rest, n, v => if k = n then (k, v) :: rest else (k, w) :: attrSet rest n v

/-- Remove the attribute stored under `n`. -/
def attrRemove : Attrs → String → Attrs
  | [], _ => []
  | (k, w) :: rest, n => if k = n then attrRemove rest n else (k, w) :: attrRemove rest n

/-- DOM `Element.getAttribute(qualifiedName)` on an HTML element. -/
def getAttribute (a : Attrs) (qualifiedName : String) : Option String :=
  attrGet a (asciiLower qualifiedName)

/-- DOM `Element.hasAttribute(qualifiedName)` on an HTML element. -/
def hasAttribute (a : Attrs) (qualifiedName : String) : Bool :=
  (attrGet a (asciiLower qualifiedName)).isSome

/-! ## Validity state -/

/-- The members of the `ValidityStateFlags` dictionary, in the order the HTML standard
declares them on `ValidityState`. -/
inductive Flag where
  | valueMissing
  | typeMismatch
  | patternMismatch
  | tooLong
  | tooShort
  | rangeUnderflow
  | rangeOverflow
  | stepMismatch
  | badInput
  | customError
deriving DecidableEq, Repr

/-- The property name of a flag. -/
def Flag.name : Flag → String
  | .valueMissing => "valueMissing"
  | .typeMismatch => "typeMismatch"
  | .patternMismatch => "patternMismatch"
  | .tooLong => "tooLong"
  | .tooShort => "tooShort"
  | .rangeUnderflow => "rangeUnderflow"
  | .rangeOverflow => "rangeOverflow"
  | .stepMismatch => "stepMismatch"
  | .badInput => "badInput"
  | .customError => "customError"

/-- All flags, in declaration order. -/
def Flag.all : List Flag :=
  [.valueMissing, .typeMismatch, .patternMismatch, .tooLong, .tooShort,
   .rangeUnderflow, .rangeOverflow, .stepMismatch, .badInput, .customError]

/-- The flag a property name denotes, if any. -/
def Flag.ofName (n : String) : Option Flag :=
  Flag.all.find? (fun f => decide (f.name = n))

/-- A `ValidityState` object: one boolean per failure reason. -/
structure ValidityState where
  valueMissing : Bool
  typeMismatch : Bool
  patternMismatch : Bool
  tooLong : Bool
  tooShort : Bool
  rangeUnderflow : Bool
  rangeOverflow : Bool
  stepMismatch : Bool
  badInput : Bool
  customError : Bool
deriving DecidableEq, Repr

/-- Read one flag. -/
def ValidityState.flag (v : ValidityState) : Flag → Bool
  | .valueMissing => v.valueMissing
  | .typeMismatch => v.typeMismatch
  | .patternMismatch => v.patternMismatch
  | .tooLong => v.tooLong
  | .tooShort => v.tooShort
  | .rangeUnderflow => v.rangeUnderflow
  | .rangeOverflow => v.rangeOverflow
  | .stepMismatch => v.stepMismatch
  | .badInput => v.badInput
  | .customError => v.customError

/-- Build a validity state from a flag predicate. -/
def ValidityState.ofFn (g : Flag → Bool) : ValidityState :=
  { valueMissing := g .valueMissing, typeMismatch := g .typeMismatch,
    patternMismatch := g .patternMismatch, tooLong := g .tooLong, tooShort := g .tooShort,
    rangeUnderflow := g .rangeUnderflow, rangeOverflow := g .rangeOverflow,
    stepMismatch := g .stepMismatch, badInput := g .badInput, customError := g .customError }

/-- The `valid` property: true iff no failure reason is true. -/
def ValidityState.valid (v : ValidityState) : Bool :=
  Flag.all.all (fun f => !v.flag f)

/-- The keys a `for ... in` loop over a `ValidityState` enumerates: the ten failure
reasons followed by `valid`, in declaration order. -/
def ValidityState.keys : List String :=
  Flag.all.map Flag.name ++ ["valid"]

/-- Property read `validState[key]`; `none` is `undefined`. -/
def ValidityState.prop (v : ValidityState) (key : String) : Option Bool :=
  match Flag.ofName key with
  | some f => some (v.flag f)
  | none => if key = "valid" then some v.valid else none

/-- Look a name up in a JavaScript object literal given as key/value pairs. -/
def dictGet : List (String × Bool) → String → Option Bool
  | [], _ => none
  | (k, b) :: rest, n => if k = n then some b else dictGet rest n

/-- Conversion of a JavaScript object to the `ValidityStateFlags` dictionary: every
member defaults to false and unknown keys are ignored. -/
def ValidityState.ofFlags (d : List (String × Bool)) : ValidityState :=
  ValidityState.ofFn (fun f => (dictGet d f.name).getD false)

/-! ## State -/

/-- The inner control (`#inputNode`), an `<input>` element: its content attributes, the
string its value holds since the last assignment or user edit (for a file control, the
string that stands for its selected files), whether it holds the focus, and its dirty
value flag (false until the value is assigned or edited). -/
structure InputNode where
  attrs : Attrs
  value : String
  focused : Bool
  dirty : Bool := false
deriving DecidableEq, Repr

/-- The modes of the `value` property of an `<input>` element. -/
inductive ValueMode where
  | value
  | default
  | defaultOn
  | filename
deriving DecidableEq, Repr

/-- The mode the `type` attribute selects. The attribute is matched without regard to
ASCII case; a missing or unknown type is the Text state, whose mode is `value`. -/
def valueMode (a : Attrs) : ValueMode :=
  let t := asciiLower ((attrGet a "type").getD "")
  if t ∈ ["hidden", "submit", "image", "reset", "button"] then .default
  else if t ∈ ["checkbox", "radio"] then .defaultOn
  else if t = "file" then .filename
  else .value

/-- DOM `setAttribute` on the inner control. -/
def InputNode.setAttribute (n : InputNode) (qualifiedName value : String) : InputNode :=
  { n with attrs := attrSet n.attrs (asciiLower qualifiedName) value }

/-- DOM `removeAttribute` on the inner control. -/
def InputNode.removeAttribute (n : InputNode) (qualifiedName : String) : InputNode :=
  { n with attrs := attrRemove n.attrs (asciiLower qualifiedName) }

/-- The form-association object (`#internals`): the aggregated validity, its message and
the submission value. -/
structure Internals where
  validity : ValidityState
  validationMessage : String
  formValue : Option String
deriving DecidableEq, Repr

/-- What the class does to the outside, in chronological order. -/
inductive Effect where
  | warn
  | dispatchEvent (type : String)
  | reportValidity
  | invalidFired
  | nativeReport
  | setValidity (flags : List (String × Bool)) (message : Option String)
deriving DecidableEq, Repr

/-- An event: its type, whether it can be canceled and its canceled flag. -/
structure Event where
  type : String
  cancelable : Bool
  defaultPrevented : Bool
deriving DecidableEq, Repr

/-- The call `e.preventDefault()`: sets the canceled flag of a cancelable event. -/
def Event.preventDefault (e : Event) : Event :=
  { e with defaultPrevented := e.cancelable }

/-- The host element. -/
structure Host where
  attrs : Attrs
  inputNode : Option InputNode
  invalid : Bool
  pristine : Bool
  validationError : Option String
  internals : Internals
  log : List Effect
deriving DecidableEq, Repr

/-- What the browser supplies: the inner control's validity snapshot and native
validation message, whether a host with the given attributes is a candidate for
constraint validation (it is not when disabled or read-only), and the value sanitization
algorithm of a control with the given attributes. -/
structure Platform where
  validity : InputNode → ValidityState
  validationMessage : InputNode → String
  willValidate : Attrs → Bool
  sanitize : Attrs → String → String

/-- The string a control in the value mode holds when its platform sanitizes nothing:
the stored string once the dirty value flag is set, the `value` content attribute (or the
empty string) before. -/
def InputNode.current (n : InputNode) : String :=
  if n.dirty then n.value else (attrGet n.attrs "value").getD ""

/-- The getter `value` of the inner control. In the value mode it returns the stored
string, which was sanitized when it was assigned, or, while the dirty value flag is
false, the sanitized `value` content attribute. In the default modes it returns the
`value` content attribute, with the fallback `on` for a checkbox or radio button. -/
def InputNode.getValue (p : Platform) (n : InputNode) : String :=
  match valueMode n.attrs with
  | .value =>
    if n.dirty then n.value else p.sanitize n.attrs ((attrGet n.attrs "value").getD "")
  | .default => (attrGet n.attrs "value").getD ""
  | .defaultOn => (attrGet n.attrs "value").getD "on"
  | .filename => n.value

/-- The setter `value` of the inner control. In the value mode it stores the sanitized
string and sets the dirty value flag; in the default modes it sets the `value` content
attribute. A file control accepts the empty string, which empties its selection; the
`InvalidStateError` it throws for any other string is not represented (the control is
left as it is), so statements about an assigned value exclude file controls. -/
def InputNode.setValue (p : Platform) (n : InputNode) (value : String) : InputNode :=
  match valueMode n.attrs with
  | .value => { n with value := p.sanitize n.attrs value, dirty := true }
  | .default => n.setAttribute "value" value
  | .defaultOn => n.setAttribute "value" value
  | .filename => if value = "" then { n with value := "" } else n

/-- The method `focus()` of the inner control: a disabled control is not focusable. -/
def InputNode.focus (n : InputNode) : InputNode :=
  if hasAttribute n.attrs "disabled" then n else { n with focused := true }

/-- The final state of a call, whether it completed or threw. -/
def state : Except Host Host → Host
  | .ok s => s
  | .error s => s

/-- Whether a call completed without throwing. -/
def completed : Except Host Host → Bool
  | .ok _ => true
  | .error _ => false

/-- Append an effect to the log. -/
def Host.logEffect (s : Host) (e : Effect) : Host :=
  { s with log := s.log ++ [e] }

/-! ## The class -/

/-- The static getter `observedAttributes`. -/
def observedAttributes : List String :=
  ["type", "value", "placeholder", "required", "min", "max", "minlength", "maxlength",
   "pattern", "disabled"]

/-- The method `attributeChangedCallback(name, oldValue, newValue)`. -/
def attributeChangedCallback (s : Host) (name : String) (_oldValue newValue : Option String) :
    Host :=
  match s.inputNode with
  | some node =>
    match newValue with
    | none => { s with inputNode := some (node.removeAttribute name) }
    | some v => { s with inputNode := some (node.setAttribute name v) }
  | none => s

/-- DOM `setAttribute` on the host: store the attribute, then run the custom element
reaction for an observed attribute. -/
def Host.setAttribute (s : Host) (qualifiedName value : String) : Host :=
  let n := asciiLower qualifiedName
  let old := attrGet s.attrs n
  let s1 := { s with attrs := attrSet s.attrs n value }
  if n ∈ observedAttributes then attributeChangedCallback s1 n old (some value) else s1

/-- DOM `removeAttribute` on the host: nothing happens when the attribute is absent. -/
def Host.removeAttribute (s : Host) (qualifiedName : String) : Host :=
  let n := asciiLower qualifiedName
  match attrGet s.attrs n with
  | none => s
  | some old =>
    let s1 := { s with attrs := attrRemove s.attrs n }
    if n ∈ observedAttributes then attributeChangedCallback s1 n (some old) none else s1

/-- The getter `validateOnChange`. -/
def Host.validateOnChange (s : Host) : Bool := hasAttribute s.attrs "validate-on-change"

/-- The getter `customErrorDisplay`. -/
def Host.customErrorDisplay (s : Host) : Bool := hasAttribute s.attrs "custom-error-display"

/-- The setter `invalid`. -/
def Host.setInvalid (s : Host) (isInvalid : Bool) : Host :=
  let s1 := { s with invalid := isInvalid }
  if isInvalid && s1.customErrorDisplay then s1.setAttribute "invalid" ""
  else s1.removeAttribute "invalid"

/-- The constructor, run on an element carrying the attributes `attrs`. -/
def construct (attrs : Attrs) : Host :=
  let s : Host :=
    { attrs := attrs, inputNode := none, invalid := false, pristine := false,
      validationError := none,
      internals := { validity := ValidityState.ofFn (fun _ => false), validationMessage := "",
                     formValue := none },
      log := [] }
  let s1 := s.setInvalid false
  { s1 with pristine := true }

/-! ### Events on the host -/

/-- The listener for `invalid` that `set inputNode` registers on the host. -/
def invalidListener (s : Host) (e : Event) : Host × Event :=
  let s1 := s.setInvalid true
  let s2 := { s1 with pristine := false }
  if s2.customErrorDisplay then (s2, e.preventDefault) else (s2, e)

/-- The listener for `focus` that `set inputNode` registers on the host. -/
def focusListener (s : Host) : Host :=
  { s with inputNode := s.inputNode.map InputNode.focus }

/-- Run the listeners the class has registered on the host for the event `e`; they are
registered once `#inputNode` is set. -/
def Host.fire (s : Host) (e : Event) : Host × Event :=
  if s.inputNode.isSome then
    if e.type = "invalid" then invalidListener s e
    else if e.type = "focus" then (focusListener s, e)
    else (s, e)
  else (s, e)

/-- The call `this.dispatchEvent(e)`. -/
def Host.dispatchEvent (s : Host) (e : Event) : Host × Event :=
  (s.logEffect (.dispatchEvent e.type)).fire e

/-! ### The form-association object -/

/-- The call `this.#internals.setValidity(flags, message)`. -/
def Host.setValidity (s : Host) (flags : List (String × Bool)) (message : Option String) :
    Except Host Host :=
  let s1 := s.logEffect (.setValidity flags message)
  let v := ValidityState.ofFlags flags
  if v.valid = false ∧ message.getD "" = "" then .error s1
  else
    .ok { s1 with internals :=
            { s1.internals with
                validity := v
                validationMessage := if v.valid then "" else message.getD "" } }

/-- The platform fires its cancelable `invalid` event at the host. -/
def Host.fireInvalid (s : Host) : Host × Event :=
  (s.logEffect .invalidFired).fire { type := "invalid", cancelable := true, defaultPrevented := false }

/-- The method `checkValidity()`, which delegates to `#internals`. -/
def Host.checkValidity (p : Platform) (s : Host) : Host × Bool :=
  if p.willValidate s.attrs = true ∧ s.internals.validity.valid = false then
    (s.fireInvalid.1, false)
  else (s, true)

/-- The method `reportValidity()`, which delegates to `#internals`: the platform reports
to the user unless the `invalid` event was canceled. -/
def Host.reportValidity (p : Platform) (s : Host) : Host × Bool :=
  let s0 := s.logEffect .reportValidity
  if p.willValidate s0.attrs = true ∧ s0.internals.validity.valid = false then
    let r := s0.fireInvalid
    if r.2.defaultPrevented then (r.1, false) else (r.1.logEffect .nativeReport, false)
  else (s0, true)

/-! ### Validation -/

/-- A `for ... in` loop whose body can throw. -/
def forIn (body : Host → String → Except Host Host) : List String → Host → Except Host Host
  | [], s => .ok s
  | k :: ks, s =>
    match body s k with
    | .ok s1 => forIn body ks s1
    | .error s1 => .error s1

/-- The body of the loop of `validateInput` for the key `st` of the snapshot `validState`
of the inner control `node`. -/
def validateState (p : Platform) (node : InputNode) (validState : ValidityState) (s : Host)
    (st : String) : Except Host Host :=
  let attr := "data-" ++ st
  if validState.prop st = some true then
    let s1 := { s with validationError := some st }
    let s2 := s1.setInvalid (!s1.pristine && !validState.valid)
    let errorMessage :=
      if hasAttribute s2.attrs attr then (JSValue.ofOption (getAttribute s2.attrs attr)).toString
      else p.validationMessage node
    match s2.setValidity [(s2.validationError.getD "undefined", true)] (some errorMessage) with
    | .error s3 => .error s3
    | .ok s3 =>
      if s3.invalid then
        if s3.customErrorDisplay then
          .ok (s3.dispatchEvent { type := "invalid", cancelable := false, defaultPrevented := false }).1
        else .ok (s3.reportValidity p).1
      else .ok s3
  else .ok s

/-- The method `validateInput()`; it throws when `#inputNode` is not set. -/
def validateInput (p : Platform) (s : Host) : Except Host Host :=
  match s.inputNode with
  | none => .error s
  | some node =>
    let validState := p.validity node
    let s1 := s.setInvalid false
    if validState.valid = false then
      forIn (validateState p node validState) ValidityState.keys s1
    else s1.setValidity [] none

/-- The method `setCustomValidity(message)`. -/
def setCustomValidity (s : Host) (message : String) : Except Host Host :=
  let error := if message ≠ "" then [(s.validationError.getD "undefined", true)] else []
  s.setValidity error (some message)

/-- The method `setErrorMessage(message)`. -/
def setErrorMessage (p : Platform) (s : Host) (message : String) : Except Host Host :=
  let s1 := { s with validationError := some "customError" }
  match setCustomValidity s1 message with
  | .error s2 => .error s2
  | .ok s2 => .ok (s2.reportValidity p).1

/-! ### Value -/

/-- The getter `value`, which reads the inner control; `none` is the `TypeError` of an
unbound host. -/
def getValue (p : Platform) (s : Host) : Option String :=
  s.inputNode.map (InputNode.getValue p)

/-- The setter `value`: it assigns to the inner control, passes the same string to
`setFormValue` and validates. -/
def setValue (p : Platform) (s : Host) (value : String) : Except Host Host :=
  match s.inputNode with
  | none => .error s
  | some node =>
    let s1 := { s with inputNode := some (node.setValue p value) }
    let s2 := { s1 with internals := { s1.internals with formValue := some value } }
    validateInput p s2

/-- The method `formResetCallback()`: `getAttribute('value') || ''`. -/
def formResetCallback (p : Platform) (s : Host) : Except Host Host :=
  let v := JSValue.ofOption (getAttribute s.attrs "value")
  setValue p s (if v.truthy then v.toString else "")

/-- The setter `disabled`; the inner control's `disabled` property reflects its attribute. -/
def setDisabled (s : Host) (isDisabled : Bool) : Except Host Host :=
  match s.inputNode with
  | none => .error s
  | some node =>
    let node1 := if isDisabled then node.setAttribute "disabled" "" else node.removeAttribute "disabled"
    let s1 := { s with inputNode := some node1 }
    if isDisabled then .ok (s1.setAttribute "disabled" "") else .ok (s1.removeAttribute "disabled")

/-- The setter `defaultValue`; the inner control's `defaultValue` property reflects its
`value` attribute. -/
def setDefaultValue (s : Host) (value : String) : Except Host Host :=
  match s.inputNode with
  | none => .error s
  | some node =>
    let s1 := { s with inputNode := some (node.setAttribute "value" value) }
    .ok (s1.setAttribute "value" value)

/-! ### Binding the inner control -/

/-- The body of the `forEach` over `observedAttributes` in `set inputNode`. -/
def replayAttribute (s : Host) (a : String) : Host :=
  let attr := asciiLower a
  let attrValue : JSValue :=
    if attr = "required" then .bool (hasAttribute s.attrs attr)
    else JSValue.ofOption (getAttribute s.attrs attr)
  if attrValue ≠ .null ∧ ¬ (attr = "required" ∧ attrValue.truthy = false) then
    if attr = "minlength" then
      if hasAttribute s.attrs "pattern" then s.logEffect .warn
      else
        let pattern := ".\x7b" ++ attrValue.toString ++ ",\x7d"
        let s1 := { s with inputNode := s.inputNode.map (fun (n : InputNode) => n.setAttribute "pattern" pattern) }
        let s2 := s1.setAttribute "pattern" pattern
        if hasAttribute s2.attrs "data-tooshort" then
          s2.setAttribute "data-patternmismatch"
            (JSValue.ofOption (getAttribute s2.attrs "data-tooshort")).toString
        else s2
    else
      { s with inputNode := s.inputNode.map (fun (n : InputNode) => n.setAttribute attr attrValue.toString) }
  else s

/-- The setter `inputNode`. The three listeners it registers are `changeListener`,
`invalidListener` and `focusListener`. -/
def setInputNode (p : Platform) (s : Host) (node : InputNode) : Except Host Host :=
  let s1 := { s with inputNode := some node }
  let s2 := observedAttributes.foldl replayAttribute s1
  let s3 := if hasAttribute s2.attrs "tabindex" then s2 else s2.setAttribute "tabindex" "0"
  validateInput p s3

/-- The listener for `change` that `set inputNode` registers on the inner control. -/
def changeListener (p : Platform) (s : Host) (e : Event) : Except Host Host :=
  let s1 := if s.validateOnChange then { s with pristine := false } else s
  match s1.inputNode with
  | none => .error s1
  | some node =>
    match setValue p s1 (node.getValue p) with
    | .error s2 => .error s2
    | .ok s2 =>
      let clone : Event := { type := e.type, cancelable := e.cancelable, defaultPrevented := false }
      validateInput p (s2.dispatchEvent clone).1

/-- An event dispatched at the inner control: the `change` listener runs for an event of
type `change`; an exception escaping a listener is reported by the platform and not
propagated to the dispatcher. -/
def inputNodeDispatchEvent (p : Platform) (s : Host) (e : Event) : Host :=
  if s.inputNode.isSome ∧ e.type = "change" then state (changeListener p s e) else s

/-! ## Runs of the class -/

/-- The states a host can reach: construction, then any sequence of the operations of
the class and of the events the platform delivers. The inner control is bound at most
once, and it can change arbitrarily between two operations (user input). Attributes of
the host may be set and removed freely, except the reflected `invalid` attribute, which
only the class writes; a consumer assigning the public properties `invalid` or `pristine`
directly is not an operation of the class. -/
inductive Reachable (p : Platform) : Host → Prop where
  | construct (attrs : Attrs) : Reachable p (construct attrs)
  | bind (s : Host) (node : InputNode) :
      Reachable p s → s.inputNode = none → Reachable p (state (setInputNode p s node))
  | setAttribute (s : Host) (name value : String) :
      Reachable p s → asciiLower name ≠ "invalid" → Reachable p (s.setAttribute name value)
  | removeAttribute (s : Host) (name : String) :
      Reachable p s → asciiLower name ≠ "invalid" → Reachable p (s.removeAttribute name)
  | attributeChanged (s : Host) (name : String) (oldValue newValue : Option String) :
      Reachable p s → Reachable p (attributeChangedCallback s name oldValue newValue)
  | innerMutate (s : Host) (node node1 : InputNode) :
      Reachable p s → s.inputNode = some node → Reachable p { s with inputNode := some node1 }
  | innerDispatch (s : Host) (e : Event) :
      Reachable p s → Reachable p (inputNodeDispatchEvent p s e)
  | setValue (s : Host) (value : String) :
      Reachable p s → Reachable p (state (setValue p s value))
  | validateInput (s : Host) :
      Reachable p s → Reachable p (state (validateInput p s))
  | dispatchEvent (s : Host) (e : Event) :
      Reachable p s → Reachable p (s.dispatchEvent e).1
  | checkValidity (s : Host) :
      Reachable p s → Reachable p (s.checkValidity p).1
  | reportValidity (s : Host) :
      Reachable p s → Reachable p (s.reportValidity p).1
  | setCustomValidity (s : Host) (message : String) :
      Reachable p s → Reachable p (state (setCustomValidity s message))
  | setErrorMessage (s : Host) (message : String) :
      Reachable p s → Reachable p (state (setErrorMessage p s message))
  | formReset (s : Host) :
      Reachable p s → Reachable p (state (formResetCallback p s))
  | setDisabled (s : Host) (isDisabled : Bool) :
      Reachable p s → Reachable p (state (setDisabled s isDisabled))
  | setDefaultValue (s : Host) (value : String) :
      Reachable p s → Reachable p (state (setDefaultValue s value))

/-! ## Vocabulary of the specification -/

/-- The failure reasons that are true in a snapshot, in snapshot order. -/
def trueReasons (v : ValidityState) : List Flag :=
  Flag.all.filter (fun f => v.flag f)

/-- The message of section 4.4 of the specification for the reason `f`: the value of the
host attribute `data-<reason, lower-cased>` when the host carries it, otherwise the inner
control's native validation message. -/
def specMessage (p : Platform) (attrs : Attrs) (node : InputNode) (f : Flag) : String :=
  match attrGet attrs ("data-" ++ asciiLower f.name) with
  | some m => m
  | none => p.validationMessage node

/-- The value of the attribute stored under `m` on the inner control, if the host is
bound and the inner control carries it. -/
def innerAttr (s : Host) (m : String) : Option String :=
  s.inputNode.bind (fun n => attrGet n.attrs m)

/-- The `setValidity` calls recorded in a log, in order. -/
def writes : List Effect → List (List (String × Bool) × Option String)
  | [] => []
  | .setValidity flags message :: rest => (flags, message) :: writes rest
  | _ :: rest => writes rest

/-- The types of the events the host dispatched through `dispatchEvent`, in order. -/
def dispatched : List Effect → List String
  | [] => []
  | .dispatchEvent type :: rest => type :: dispatched rest
  | _ :: rest => dispatched rest

/-- The declared default value of the host: its `value` attribute, or the empty string. -/
def declaredDefault (attrs : Attrs) : String :=
  (attrGet attrs "value").getD ""

/-! ## Concrete platforms and hosts -/

/-- A platform whose inner control always reports the snapshot `v` with the native
message `m`, and on which every host is a candidate for constraint validation. -/
def fixedPlatform (v : ValidityState) (m : String) : Platform :=
  { validity := fun _ => v, validationMessage := fun _ => m, willValidate := fun _ => true,
    sanitize := fun _ value => value }

/-- The snapshot in which exactly the reasons of `fs` are true. -/
def snapshotOf (fs : List Flag) : ValidityState :=
  ValidityState.ofFn (fun f => decide (f ∈ fs))

/-- An inner control without attributes and with an empty value. -/
def freshNode : InputNode := { attrs := [], value := "", focused := false }

/-- The fresh inner control once its value has been assigned: the dirty value flag is
set. -/
def assignedNode : InputNode := { attrs := [], value := "", focused := false, dirty := true }

/-- A host constructed with the attributes `attrs` and then bound to a fresh inner
control on the platform `p`. -/
def boundHost (p : Platform) (attrs : Attrs) : Host :=
  state (setInputNode p (construct attrs) freshNode)

/-- The platform of an empty required field: `valueMissing` with the native message. -/
def missingPlatform : Platform :=
  fixedPlatform (snapshotOf [.valueMissing]) "Please fill out this field."

/-- The platform of a number field below its minimum and off its step: `rangeUnderflow`
and `stepMismatch` are both true. -/
def underflowStepPlatform : Platform :=
  fixedPlatform (snapshotOf [.rangeUnderflow, .stepMismatch]) "Value must be greater."

/-- The platform of a text field whose value does not match its pattern:
`patternMismatch` with the native message. -/
def mismatchPlatform : Platform :=
  fixedPlatform (snapshotOf [.patternMismatch]) "Please match the requested format."

/-- A platform on which the inner control, a text control, suffers from `valueMissing`
exactly when it carries the attribute `required` and its value is empty. -/
def requiredPlatform : Platform :=
  { validity := fun n =>
      ValidityState.ofFn (fun f =>
        decide (f = .valueMissing) && hasAttribute n.attrs "required" && decide (n.current = ""))
    validationMessage := fun _ => "Please fill out this field."
    willValidate := fun _ => true
    sanitize := fun _ value => value }

/-- The platform `requiredPlatform`, on which moreover a host that carries `disabled` or
`readonly` is barred from constraint validation. -/
def barringPlatform : Platform :=
  { requiredPlatform with
    willValidate := fun a => !(hasAttribute a "disabled" || hasAttribute a "readonly") }

/-- The platform of an e-mail field with a pattern on which every non-empty value is
neither an e-mail address nor a match of the pattern: `typeMismatch` and
`patternMismatch` are both true unless the value is empty. -/
def typePatternPlatform : Platform :=
  { validity := fun n =>
      if n.current = "" then snapshotOf [] else snapshotOf [.typeMismatch, .patternMismatch]
    validationMessage := fun _ => "Please enter an email address."
    willValidate := fun _ => true
    sanitize := fun _ value => value }

/-- Whether a character is an ASCII digit. -/
def isAsciiDigit (c : Char) : Bool := decide (48 ≤ c.toNat ∧ c.toNat ≤ 57)

/-- A non-empty run of ASCII digits. -/
def isDigits (l : List Char) : Bool := !l.isEmpty && l.all isAsciiDigit

/-- The part of a floating-point number before its exponent: digits, optionally followed
by a point and digits, or a point and digits alone. -/
def isMantissa (l : List Char) : Bool :=
  match l.span isAsciiDigit with
  | (ds, []) => !ds.isEmpty
  | (_, c :: fs) => decide (c.toNat = 46) && isDigits fs

/-- The exponent of a floating-point number after its `e`: an optional sign and digits. -/
def isExponent : List Char → Bool
  | [] => false
  | c :: ds => if c.toNat = 45 ∨ c.toNat = 43 then isDigits ds else isDigits (c :: ds)

/-- A valid floating-point number of the HTML standard: an optional minus sign, a
mantissa and an optional exponent. -/
def validFloatingPointNumber (v : String) : Bool :=
  let l := match v.data with
    | [] => []
    | c :: r => if c.toNat = 45 then r else c :: r
  match l.span (fun c => !decide (c.toNat = 101 ∨ c.toNat = 69)) with
  | (m, []) => isMantissa m
  | (m, _ :: e) => isMantissa m && isExponent e

/-- A platform whose number controls run the value sanitization algorithm of the Number
state: a string that is not a valid floating-point number becomes the empty string. A
control of another type stores the assigned string as it is, and every snapshot is
valid. -/
def numberPlatform : Platform :=
  { validity := fun _ => snapshotOf []
    validationMessage := fun _ => ""
    willValidate := fun _ => true
    sanitize := fun a value =>
      if asciiLower ((attrGet a "type").getD "") = "number" ∧
          validFloatingPointNumber value = false then ""
      else value }

/-- A bound host with `validate-on-change` whose inner control has emitted one `change`
event: it is no longer pristine. -/
def touchedHost (p : Platform) (attrs : Attrs) : Host :=
  inputNodeDispatchEvent p (boundHost p (("validate-on-change", "") :: attrs))
    { type := "change", cancelable := false, defaultPrevented := false }

/-! ## Invariants -/

/-- Pristine gating of the presentation flag: the reflected `invalid` attribute is
present only while the `invalid` flag is true, and the flag is true only on a host that
is no longer pristine. -/
def PristineGate (s : Host) : Prop :=
  (hasAttribute s.attrs "invalid" = true → s.invalid = true) ∧
  (s.invalid = true → s.pristine = false)

/-! ## Closed forms of one pass of the validation loop -/

/-- The host after the loop body of `validateInput` wrote the reason `f` with the
message `m`, before any report. -/
def written (s : Host) (f : Flag) (m : String) : Host :=
  { s with
      validationError := some f.name
      invalid := !s.pristine
      attrs := if (!s.pristine && s.customErrorDisplay) = true then attrSet s.attrs "invalid" ""
               else attrRemove s.attrs "invalid"
      log := s.log ++ [.setValidity [(f.name, true)] (some m)]
      internals := { s.internals with
                       validity := ValidityState.ofFlags [(f.name, true)]
                       validationMessage := m } }

/-- The host in which the loop body of `validateInput` throws for the reason `f`, whose
message is empty: the write was attempted and refused. -/
def refused (s : Host) (f : Flag) : Host :=
  { s with
      validationError := some f.name
      invalid := !s.pristine
      attrs := if (!s.pristine && s.customErrorDisplay) = true then attrSet s.attrs "invalid" ""
               else attrRemove s.attrs "invalid"
      log := s.log ++ [.setValidity [(f.name, true)] (some "")] }

/-- The effects of the report that follows a write on a host that is not pristine. -/
def reportEffects (p : Platform) (s : Host) : List Effect :=
  if s.customErrorDisplay = true then [.dispatchEvent "invalid"]
  else if p.willValidate (attrRemove s.attrs "invalid") = true then
    [.reportValidity, .invalidFired, .nativeReport]
  else [.reportValidity]

/-- The effects of one completed pass of the loop body for a true reason `f`. -/
def passEffects (p : Platform) (s : Host) (node : InputNode) (f : Flag) : List Effect :=
  .setValidity [(f.name, true)] (some (specMessage p s.attrs node f)) ::
    (if s.pristine = true then [] else reportEffects p s)

/-- The host after one completed pass of the loop body for a true reason `f`. -/
def afterPass (p : Platform) (s : Host) (node : InputNode) (f : Flag) : Host :=
  { written s f (specMessage p s.attrs node f) with log := s.log ++ passEffects p s node f }

/-- The frame of a validation: the second host has the pristine flag, the inner control,
the submission value and all attributes but `invalid` of the first. -/
def SameExceptInvalid (s t : Host) : Prop :=
  t.pristine = s.pristine ∧ t.inputNode = s.inputNode ∧
  t.internals.formValue = s.internals.formValue ∧
  ∀ m : String, "invalid" ≠ m → attrGet t.attrs m = attrGet s.attrs m

/-! ## Aggregated validity -/

/-- The invariant of the aggregated validity (section 3 of the specification): when it
reports invalid, exactly one reason is set in it and its message is not empty. -/
def Aggregated (s : Host) : Prop :=
  s.internals.validity.valid = false →
    (∃ f, ∀ g, s.internals.validity.flag g = true ↔ g = f) ∧
    s.internals.validationMessage ≠ ""

/-! # Properties -/

/-! ## Attribute lists -/

theorem attrGet_attrSet (a : Attrs) (n v m : String) :
    attrGet (attrSet a n v) m = if n = m then some v else attrGet a m := by
  induction a with
  | nil => simp [attrSet, attrGet]
  | cons hd tl ih =>
    obtain ⟨k, w⟩ := hd
    by_cases hk : k = n
    · subst hk
      by_cases hm : k = m <;> simp [attrSet, attrGet, hm]
    · by_cases hm : k = m
      · subst hm
        simp [attrSet, attrGet, hk, Ne.symm hk]
      · simp [attrSet, attrGet, hk, hm, ih]

theorem attrGet_attrRemove (a : Attrs) (n m : String) :
    attrGet (attrRemove a n) m = if n = m then none else attrGet a m := by
  induction a with
  | nil => simp [attrRemove, attrGet]
  | cons hd tl ih =>
    obtain ⟨k, w⟩ := hd
    by_cases hk : k = n
    · subst hk
      by_cases hm : k = m
      · subst hm
        simpa [attrRemove, attrGet] using ih
      · simp [attrRemove, attrGet, hm, ih]
    · by_cases hm : k = m
      · subst hm
        simp [attrRemove, attrGet, hk, Ne.symm hk]
      · simp [attrRemove, attrGet, hk, hm, ih]

theorem attrRemove_of_attrGet_none (a : Attrs) (n : String) (h : attrGet a n = none) :
    attrRemove a n = a := by
  induction a with
  | nil => rfl
  | cons hd tl ih =>
    obtain ⟨k, w⟩ := hd
    by_cases hk : k = n
    · simp [attrGet, hk] at h
    · simp [attrGet, hk] at h
      simp [attrRemove, hk, ih h]

theorem asciiLower_observed (a : String) (h : a ∈ observedAttributes) : asciiLower a = a := by
  simp only [observedAttributes, List.mem_cons, List.mem_singleton, List.mem_nil_iff, or_false] at h
  rcases h with h | h | h | h | h | h | h | h | h | h <;> subst h <;> decide

theorem asciiLower_data (f : Flag) :
    asciiLower ("data-" ++ f.name) = "data-" ++ asciiLower f.name := by
  cases f <;> decide

theorem data_ne_invalid (f : Flag) : "invalid" ≠ "data-" ++ asciiLower f.name := by
  cases f <;> decide

theorem Flag.ofName_name (f : Flag) : Flag.ofName f.name = some f := by
  cases f <;> decide

theorem Flag.ofName_valid : Flag.ofName "valid" = none := by decide

theorem ValidityState.flag_ofFn (g : Flag → Bool) (f : Flag) :
    (ValidityState.ofFn g).flag f = g f := by
  cases f <;> rfl

theorem Flag.mem_all (f : Flag) : f ∈ Flag.all := by
  cases f <;> decide

theorem Flag.name_injective {f g : Flag} (h : f.name = g.name) : f = g := by
  cases f <;> cases g <;> first | rfl | (exact absurd h (by decide))



@[simp] theorem asciiLower_invalid : asciiLower "invalid" = "invalid" := by decide
@[simp] theorem asciiLower_customErrorDisplay :
    asciiLower "custom-error-display" = "custom-error-display" := by decide
@[simp] theorem asciiLower_validateOnChange :
    asciiLower "validate-on-change" = "validate-on-change" := by decide
@[simp] theorem asciiLower_tabindex : asciiLower "tabindex" = "tabindex" := by decide
@[simp] theorem asciiLower_pattern : asciiLower "pattern" = "pattern" := by decide
@[simp] theorem asciiLower_minlength : asciiLower "minlength" = "minlength" := by decide
@[simp] theorem asciiLower_required : asciiLower "required" = "required" := by decide
@[simp] theorem asciiLower_value : asciiLower "value" = "value" := by decide
@[simp] theorem asciiLower_disabled : asciiLower "disabled" = "disabled" := by decide
@[simp] theorem asciiLower_dataTooshort : asciiLower "data-tooshort" = "data-tooshort" := by decide
@[simp] theorem asciiLower_dataPatternmismatch :
    asciiLower "data-patternmismatch" = "data-patternmismatch" := by decide

theorem Host.setAttribute_of_not_observed (s : Host) (n v : String)
    (h : asciiLower n ∉ observedAttributes) :
    s.setAttribute n v = { s with attrs := attrSet s.attrs (asciiLower n) v } := by
  simp [Host.setAttribute, h]

theorem Host.removeAttribute_of_not_observed (s : Host) (n : String)
    (h : asciiLower n ∉ observedAttributes) :
    s.removeAttribute n = { s with attrs := attrRemove s.attrs (asciiLower n) } := by
  cases hg : attrGet s.attrs (asciiLower n) with
  | none => simp [Host.removeAttribute, hg, attrRemove_of_attrGet_none _ _ hg]
  | some old => simp [Host.removeAttribute, hg, h]

theorem Host.setInvalid_eq (s : Host) (b : Bool) :
    s.setInvalid b =
      { s with
          invalid := b
          attrs := if b && s.customErrorDisplay then attrSet s.attrs "invalid" ""
                   else attrRemove s.attrs "invalid" } := by
  have h : asciiLower "invalid" ∉ observedAttributes := by decide
  unfold Host.setInvalid
  simp only [Host.setAttribute_of_not_observed _ _ _ h, Host.removeAttribute_of_not_observed _ _ h,
    asciiLower_invalid, Host.customErrorDisplay]
  split <;> rfl

/-! ## Validity states -/

theorem ValidityState.ofFlags_single_valid (f : Flag) :
    (ValidityState.ofFlags [(f.name, true)]).valid = false := by
  cases f <;> decide

theorem ValidityState.ofFlags_single_flag (f g : Flag) :
    (ValidityState.ofFlags [(f.name, true)]).flag g = decide (g = f) := by
  cases f <;> cases g <;> decide

theorem ValidityState.ofFlags_nil_valid : (ValidityState.ofFlags []).valid = true := by decide

theorem ValidityState.prop_name (v : ValidityState) (f : Flag) :
    v.prop f.name = some (v.flag f) := by
  simp [ValidityState.prop, Flag.ofName_name]

theorem ValidityState.prop_valid (v : ValidityState) : v.prop "valid" = some v.valid := by
  simp [ValidityState.prop, Flag.ofName_valid]

theorem ValidityState.valid_eq_false_of_flag {v : ValidityState} {f : Flag}
    (h : v.flag f = true) : v.valid = false := by
  cases hv : v.valid with
  | false => rfl
  | true =>
    have := (List.all_eq_true.mp hv) f (Flag.mem_all f)
    simp [h] at this

theorem attrSet_attrSet (a : Attrs) (n v w : String) :
    attrSet (attrSet a n v) n w = attrSet a n w := by
  induction a with
  | nil => simp [attrSet]
  | cons hd tl ih =>
    obtain ⟨k, u⟩ := hd
    by_cases hk : k = n <;> simp [attrSet, hk, ih]

theorem attrRemove_attrRemove (a : Attrs) (n : String) :
    attrRemove (attrRemove a n) n = attrRemove a n := by
  induction a with
  | nil => simp [attrRemove]
  | cons hd tl ih =>
    obtain ⟨k, u⟩ := hd
    by_cases hk : k = n <;> simp [attrRemove, hk, ih]

/-- The attributes of the host after the setter `invalid` ran with `b`. -/
theorem hasAttribute_setInvalid (s : Host) (b : Bool) (n : String)
    (h : "invalid" ≠ asciiLower n) :
    hasAttribute (s.setInvalid b).attrs n = hasAttribute s.attrs n := by
  simp only [Host.setInvalid_eq, hasAttribute]
  split <;> simp [attrGet_attrSet, attrGet_attrRemove, h]

/-! ## One pass of the validation loop -/

theorem errorMessage_eq (p : Platform) (s : Host) (node : InputNode) (f : Flag) (b : Bool) :
    (if hasAttribute (s.setInvalid b).attrs ("data-" ++ f.name) = true then
        (JSValue.ofOption (getAttribute (s.setInvalid b).attrs ("data-" ++ f.name))).toString
      else p.validationMessage node) = specMessage p s.attrs node f := by
  have hne := data_ne_invalid f
  have hget : getAttribute (s.setInvalid b).attrs ("data-" ++ f.name)
      = attrGet s.attrs ("data-" ++ asciiLower f.name) := by
    simp only [Host.setInvalid_eq, getAttribute, asciiLower_data]
    split <;> simp [attrGet_attrSet, attrGet_attrRemove, hne]
  have hhas : hasAttribute (s.setInvalid b).attrs ("data-" ++ f.name)
      = (attrGet s.attrs ("data-" ++ asciiLower f.name)).isSome := by
    simpa [hasAttribute, getAttribute] using congrArg Option.isSome hget
  rw [hhas, hget, specMessage]
  cases attrGet s.attrs ("data-" ++ asciiLower f.name) <;> simp [JSValue.ofOption, JSValue.toString]

theorem Host.setValidity_single (s : Host) (f : Flag) (m : String) (hm : m ≠ "") :
    s.setValidity [(f.name, true)] (some m) =
      .ok { s with
              log := s.log ++ [.setValidity [(f.name, true)] (some m)]
              internals := { s.internals with
                               validity := ValidityState.ofFlags [(f.name, true)]
                               validationMessage := m } } := by
  simp [Host.setValidity, Host.logEffect, ValidityState.ofFlags_single_valid, hm]

theorem Host.setValidity_single_empty (s : Host) (f : Flag) :
    s.setValidity [(f.name, true)] (some "") =
      .error (s.logEffect (.setValidity [(f.name, true)] (some ""))) := by
  simp [Host.setValidity, ValidityState.ofFlags_single_valid]

theorem hasAttribute_attrSet_ne (a : Attrs) (n v m : String) (h : n ≠ asciiLower m) :
    hasAttribute (attrSet a n v) m = hasAttribute a m := by
  simp [hasAttribute, attrGet_attrSet, h]

theorem hasAttribute_attrRemove_ne (a : Attrs) (n m : String) (h : n ≠ asciiLower m) :
    hasAttribute (attrRemove a n) m = hasAttribute a m := by
  simp [hasAttribute, attrGet_attrRemove, h]

theorem invalidListener_fst (s : Host) (e : Event) :
    (invalidListener s e).1 =
      { s with
          invalid := true
          pristine := false
          attrs := if s.customErrorDisplay = true then attrSet s.attrs "invalid" ""
                   else attrRemove s.attrs "invalid" } := by
  by_cases hc : hasAttribute s.attrs "custom-error-display" = true <;>
    simp [invalidListener, Host.setInvalid_eq, Host.customErrorDisplay, hc,
      hasAttribute_attrSet_ne, hasAttribute_attrRemove_ne]

theorem invalidListener_snd (s : Host) (e : Event) :
    (invalidListener s e).2 = if s.customErrorDisplay = true then e.preventDefault else e := by
  by_cases hc : hasAttribute s.attrs "custom-error-display" = true <;>
    simp [invalidListener, Host.setInvalid_eq, Host.customErrorDisplay, hc,
      hasAttribute_attrSet_ne, hasAttribute_attrRemove_ne]

theorem validateState_of_true (p : Platform) (node : InputNode) (v : ValidityState) (s : Host)
    (f : Flag) (hn : s.inputNode = some node) (hf : v.flag f = true)
    (hm : specMessage p s.attrs node f ≠ "") :
    validateState p node v s f.name = .ok (afterPass p s node f) := by
  have hv := ValidityState.valid_eq_false_of_flag hf
  unfold validateState
  simp only [ValidityState.prop_name, hf, hv, if_true, Bool.not_false, Bool.and_true]
  rw [errorMessage_eq]
  simp only [Host.setInvalid_eq, Option.getD_some, Host.setValidity_single _ _ _ hm]
  cases hp : s.pristine <;> cases hc : hasAttribute s.attrs "custom-error-display"
  all_goals simp [afterPass, passEffects, written, reportEffects, hp, hc, Host.dispatchEvent, Host.reportValidity,
      Host.fireInvalid, Host.fire, Host.logEffect, hn, invalidListener_fst, invalidListener_snd,
      Host.customErrorDisplay, hasAttribute_attrSet_ne, hasAttribute_attrRemove_ne,
      ValidityState.ofFlags_single_valid, attrSet_attrSet, attrRemove_attrRemove]
  split <;> rfl

theorem validateState_of_true_empty (p : Platform) (node : InputNode) (v : ValidityState)
    (s : Host) (f : Flag) (hf : v.flag f = true) (hm : specMessage p s.attrs node f = "") :
    validateState p node v s f.name = .error (refused s f) := by
  have hv := ValidityState.valid_eq_false_of_flag hf
  unfold validateState
  simp only [ValidityState.prop_name, hf, hv, if_true, Bool.not_false, Bool.and_true]
  rw [errorMessage_eq]
  simp only [Host.setInvalid_eq, Option.getD_some, hm, Host.setValidity_single_empty]
  simp [refused, Host.logEffect, Host.customErrorDisplay]

theorem validateState_of_false (p : Platform) (node : InputNode) (v : ValidityState)
    (s : Host) (f : Flag) (hf : v.flag f = false) :
    validateState p node v s f.name = .ok s := by
  simp [validateState, ValidityState.prop_name, hf]

theorem validateState_valid (p : Platform) (node : InputNode) (v : ValidityState)
    (s : Host) (hv : v.valid = false) :
    validateState p node v s "valid" = .ok s := by
  simp [validateState, ValidityState.prop_valid, hv]

/-! ## The validation loop -/

theorem forIn_append (body : Host → String → Except Host Host) (xs ys : List String) (s : Host) :
    forIn body (xs ++ ys) s =
      match forIn body xs s with
      | .ok s1 => forIn body ys s1
      | .error s1 => .error s1 := by
  induction xs generalizing s with
  | nil => rfl
  | cons x xs ih =>
    simp only [List.cons_append, forIn]
    cases body s x with
    | ok s1 => simpa using ih s1
    | error s1 => rfl

theorem forIn_flags_filter (p : Platform) (node : InputNode) (v : ValidityState)
    (fs : List Flag) (s : Host) :
    forIn (validateState p node v) (fs.map Flag.name) s =
      forIn (validateState p node v) ((fs.filter (fun f => v.flag f)).map Flag.name) s := by
  induction fs generalizing s with
  | nil => rfl
  | cons f fs ih =>
    cases hf : v.flag f with
    | false => simp [forIn, List.filter, hf, validateState_of_false, ih]
    | true =>
      simp only [List.map_cons, List.filter, hf, forIn]
      cases validateState p node v s f.name with
      | ok s1 => simpa using ih s1
      | error s1 => rfl

theorem toggled_toggled (a : Attrs) (b : Bool) :
    (if b = true then attrSet (if b = true then attrSet a "invalid" "" else attrRemove a "invalid")
        "invalid" ""
     else attrRemove (if b = true then attrSet a "invalid" "" else attrRemove a "invalid")
        "invalid") =
    (if b = true then attrSet a "invalid" "" else attrRemove a "invalid") := by
  cases b <;> simp [attrSet_attrSet, attrRemove_attrRemove]

theorem attrGet_toggled (a : Attrs) (b : Bool) (m : String) (h : "invalid" ≠ m) :
    attrGet (if b = true then attrSet a "invalid" "" else attrRemove a "invalid") m
      = attrGet a m := by
  cases b <;> simp [attrGet_attrSet, attrGet_attrRemove, h]

theorem specMessage_congr (p : Platform) (a b : Attrs) (node : InputNode) (f : Flag)
    (h : ∀ m : String, "invalid" ≠ m → attrGet b m = attrGet a m) :
    specMessage p b node f = specMessage p a node f := by
  simp [specMessage, h _ (data_ne_invalid f)]

theorem afterPass_customErrorDisplay (p : Platform) (s : Host) (node : InputNode) (f : Flag) :
    (afterPass p s node f).customErrorDisplay = s.customErrorDisplay := by
  simp only [afterPass, written, Host.customErrorDisplay, hasAttribute]
  rw [attrGet_toggled]
  simp

theorem afterPass_specMessage (p : Platform) (s : Host) (node : InputNode) (f g : Flag) :
    specMessage p (afterPass p s node f).attrs node g = specMessage p s.attrs node g := by
  apply specMessage_congr
  intro m hm
  simp only [afterPass, written]
  exact attrGet_toggled _ _ _ hm

theorem afterPass_reportEffects (p : Platform) (s : Host) (node : InputNode) (f : Flag) :
    reportEffects p (afterPass p s node f) = reportEffects p s := by
  unfold reportEffects
  rw [afterPass_customErrorDisplay]
  cases hc : s.customErrorDisplay with
  | true => simp
  | false => simp [afterPass, written, hc, attrRemove_attrRemove]

theorem afterPass_passEffects (p : Platform) (s : Host) (node : InputNode) (f g : Flag) :
    passEffects p (afterPass p s node f) node g = passEffects p s node g := by
  unfold passEffects
  rw [afterPass_specMessage, afterPass_reportEffects]
  simp [afterPass, written]

theorem afterPass_afterPass (p : Platform) (s : Host) (node : InputNode) (f g : Flag) :
    afterPass p (afterPass p s node f) node g =
      { afterPass p s node g with
          log := s.log ++ (passEffects p s node f ++ passEffects p s node g) } := by
  have h1 := afterPass_passEffects p s node f g
  have h2 := afterPass_specMessage p s node f g
  have h3 := afterPass_customErrorDisplay p s node f
  unfold afterPass at *
  rw [h1, h2]
  simp only [written] at *
  simp only [h3]
  simp only [Host.mk.injEq, true_and, and_true, List.append_assoc, and_self]
  exact toggled_toggled s.attrs (!s.pristine && s.customErrorDisplay)

theorem forIn_true_flags (p : Platform) (node : InputNode) (v : ValidityState) (gs : List Flag)
    (s : Host) (hn : s.inputNode = some node) (ht : ∀ g ∈ gs, v.flag g = true)
    (hm : ∀ g ∈ gs, specMessage p s.attrs node g ≠ "") :
    forIn (validateState p node v) (gs.map Flag.name) s =
      .ok (match gs.getLast? with
           | none => s
           | some g =>
             { afterPass p s node g with log := s.log ++ gs.flatMap (passEffects p s node) }) := by
  induction gs generalizing s with
  | nil => rfl
  | cons g gs ih =>
    have hg := validateState_of_true p node v s g hn (ht g (List.mem_cons_self _ _))
      (hm g (List.mem_cons_self _ _))
    simp only [List.map_cons, forIn, hg]
    have hn1 : (afterPass p s node g).inputNode = some node := by simpa [afterPass, written] using hn
    rw [ih (afterPass p s node g) hn1 (fun h hh => ht h (List.mem_cons_of_mem _ hh))
      (fun h hh => by rw [afterPass_specMessage]; exact hm h (List.mem_cons_of_mem _ hh))]
    cases gs with
    | nil => simp [afterPass]
    | cons h t =>
      rw [List.getLast?_cons_cons]
      cases hl : (h :: t).getLast? with
      | none => simp [List.getLast?_eq_none_iff] at hl
      | some l =>
        have hfun : passEffects p (afterPass p s node g) node = passEffects p s node := by
          funext x
          exact afterPass_passEffects p s node g x
        simp only [afterPass_afterPass, hfun, List.flatMap_cons]
        simp [afterPass, List.append_assoc]

theorem forIn_true_flags_messages (p : Platform) (node : InputNode) (v : ValidityState)
    (gs : List Flag) (s t : Host) (hn : s.inputNode = some node)
    (ht : ∀ g ∈ gs, v.flag g = true)
    (hok : forIn (validateState p node v) (gs.map Flag.name) s = .ok t) :
    ∀ g ∈ gs, specMessage p s.attrs node g ≠ "" := by
  induction gs generalizing s with
  | nil => simp
  | cons g gs ih =>
    by_cases hm : specMessage p s.attrs node g = ""
    · simp [forIn, validateState_of_true_empty p node v s g (ht g (List.mem_cons_self _ _)) hm]
        at hok
    · have hg := validateState_of_true p node v s g hn (ht g (List.mem_cons_self _ _)) hm
      simp only [List.map_cons, forIn, hg] at hok
      have hn1 : (afterPass p s node g).inputNode = some node := by
        simpa [afterPass, written] using hn
      have := ih (afterPass p s node g) hn1 (fun h hh => ht h (List.mem_cons_of_mem _ hh)) hok
      intro h hh
      rcases List.mem_cons.mp hh with rfl | hh
      · exact hm
      · simpa [afterPass_specMessage] using this h hh

/-! ## Frame and gate of a validation -/

theorem SameExceptInvalid.refl (s : Host) : SameExceptInvalid s s :=
  ⟨rfl, rfl, rfl, fun _ _ => rfl⟩

theorem SameExceptInvalid.trans {s t u : Host} (h1 : SameExceptInvalid s t)
    (h2 : SameExceptInvalid t u) : SameExceptInvalid s u :=
  ⟨h2.1.trans h1.1, h2.2.1.trans h1.2.1, h2.2.2.1.trans h1.2.2.1,
    fun m hm => (h2.2.2.2 m hm).trans (h1.2.2.2 m hm)⟩

theorem sameExceptInvalid_setInvalid (s : Host) (b : Bool) :
    SameExceptInvalid s (s.setInvalid b) := by
  refine ⟨?_, ?_, ?_, ?_⟩ <;> simp only [Host.setInvalid_eq]
  intro m hm
  exact attrGet_toggled _ _ _ hm

theorem sameExceptInvalid_afterPass (p : Platform) (s : Host) (node : InputNode) (f : Flag) :
    SameExceptInvalid s (afterPass p s node f) := by
  refine ⟨?_, ?_, ?_, ?_⟩ <;> simp only [afterPass, written]
  intro m hm
  exact attrGet_toggled _ _ _ hm

theorem sameExceptInvalid_refused (s : Host) (f : Flag) :
    SameExceptInvalid s (refused s f) := by
  refine ⟨?_, ?_, ?_, ?_⟩ <;> simp only [refused]
  intro m hm
  exact attrGet_toggled _ _ _ hm

theorem hasAttribute_toggled (a : Attrs) (b : Bool) :
    hasAttribute (if b = true then attrSet a "invalid" "" else attrRemove a "invalid") "invalid"
      = b := by
  cases b <;> simp [hasAttribute, attrGet_attrSet, attrGet_attrRemove]

theorem pristineGate_setInvalid_false (s : Host) : PristineGate (s.setInvalid false) := by
  constructor
  · intro h
    simp only [Host.setInvalid_eq, Bool.false_and] at h
    have := hasAttribute_toggled s.attrs false
    simp only [Bool.false_eq_true, if_false] at this h
    rw [this] at h
    exact absurd h (by simp)
  · intro h
    simp [Host.setInvalid_eq] at h

theorem pristineGate_afterPass (p : Platform) (s : Host) (node : InputNode) (f : Flag) :
    PristineGate (afterPass p s node f) := by
  constructor
  · intro h
    simp only [afterPass, written] at h ⊢
    rw [hasAttribute_toggled] at h
    simp only [Bool.and_eq_true] at h
    exact h.1
  · intro h
    simpa [afterPass, written] using h

theorem pristineGate_refused (s : Host) (f : Flag) : PristineGate (refused s f) := by
  constructor
  · intro h
    simp only [refused] at h ⊢
    rw [hasAttribute_toggled] at h
    simp only [Bool.and_eq_true] at h
    exact h.1
  · intro h
    simpa [refused] using h

theorem forIn_true_flags_state (p : Platform) (node : InputNode) (v : ValidityState)
    (gs : List Flag) (s : Host) (hn : s.inputNode = some node)
    (ht : ∀ g ∈ gs, v.flag g = true) :
    SameExceptInvalid s (state (forIn (validateState p node v) (gs.map Flag.name) s)) ∧
    (PristineGate s → PristineGate (state (forIn (validateState p node v) (gs.map Flag.name) s))) := by
  induction gs generalizing s with
  | nil => exact ⟨SameExceptInvalid.refl s, fun h => h⟩
  | cons g gs ih =>
    by_cases hm : specMessage p s.attrs node g = ""
    · simp only [List.map_cons, forIn,
        validateState_of_true_empty p node v s g (ht g (List.mem_cons_self _ _)) hm, state]
      exact ⟨sameExceptInvalid_refused s g, fun _ => pristineGate_refused s g⟩
    · have hg := validateState_of_true p node v s g hn (ht g (List.mem_cons_self _ _)) hm
      simp only [List.map_cons, forIn, hg]
      have hn1 : (afterPass p s node g).inputNode = some node := by
        simpa [afterPass, written] using hn
      have := ih (afterPass p s node g) hn1 (fun h hh => ht h (List.mem_cons_of_mem _ hh))
      exact ⟨(sameExceptInvalid_afterPass p s node g).trans this.1,
        fun _ => this.2 (pristineGate_afterPass p s node g)⟩

theorem forIn_keys (p : Platform) (node : InputNode) (v : ValidityState) (s : Host)
    (hv : v.valid = false) :
    forIn (validateState p node v) ValidityState.keys s =
      forIn (validateState p node v) ((trueReasons v).map Flag.name) s := by
  unfold ValidityState.keys trueReasons
  rw [forIn_append, forIn_flags_filter]
  cases forIn (validateState p node v)
      ((List.filter (fun f => v.flag f) Flag.all).map Flag.name) s with
  | ok s1 => simp [forIn, validateState_valid p node v s1 hv]
  | error s1 => rfl

theorem mem_trueReasons {v : ValidityState} {g : Flag} (h : g ∈ trueReasons v) :
    v.flag g = true := by
  simpa [trueReasons] using (List.mem_filter.mp h).2

theorem trueReasons_ne_nil {v : ValidityState} (hv : v.valid = false) : trueReasons v ≠ [] := by
  intro h
  have : v.valid = true := by
    unfold ValidityState.valid
    rw [List.all_eq_true]
    intro f hf
    cases hff : v.flag f with
    | false => rfl
    | true =>
      have : f ∈ trueReasons v := List.mem_filter.mpr ⟨hf, by simpa using hff⟩
      rw [h] at this
      exact absurd this (List.not_mem_nil _)
  rw [hv] at this
  exact absurd this (by simp)

theorem Host.setValidity_nil (s : Host) :
    s.setValidity [] none =
      .ok { s with
              log := s.log ++ [.setValidity [] none]
              internals := { s.internals with
                               validity := ValidityState.ofFlags []
                               validationMessage := "" } } := by
  simp [Host.setValidity, Host.logEffect, ValidityState.ofFlags_nil_valid]

theorem validateInput_state (p : Platform) (s : Host) :
    SameExceptInvalid s (state (validateInput p s)) ∧
    (PristineGate s → PristineGate (state (validateInput p s))) := by
  unfold validateInput
  cases hn : s.inputNode with
  | none => exact ⟨SameExceptInvalid.refl s, fun h => h⟩
  | some node =>
    simp only
    have h0 := sameExceptInvalid_setInvalid s false
    have g0 := pristineGate_setInvalid_false s
    have hn0 : (s.setInvalid false).inputNode = some node := by rw [h0.2.1, hn]
    cases hv : (p.validity node).valid with
    | false =>
      simp only [if_true]
      rw [forIn_keys p node _ _ hv]
      have := forIn_true_flags_state p node (p.validity node) (trueReasons (p.validity node))
        (s.setInvalid false) hn0 (fun g hg => mem_trueReasons hg)
      exact ⟨h0.trans this.1, fun _ => this.2 g0⟩
    | true =>
      simp only [Bool.true_eq_false, if_false, Host.setValidity_nil, state]
      refine ⟨h0.trans ⟨rfl, rfl, rfl, fun _ _ => rfl⟩, fun _ => ?_⟩
      exact ⟨fun h => g0.1 h, fun h => g0.2 h⟩

/-! ## Footprints of the attribute operations -/

theorem attributeChangedCallback_fields (s : Host) (n : String) (o v : Option String) :
    (attributeChangedCallback s n o v).attrs = s.attrs ∧
    (attributeChangedCallback s n o v).invalid = s.invalid ∧
    (attributeChangedCallback s n o v).pristine = s.pristine ∧
    (attributeChangedCallback s n o v).internals = s.internals ∧
    (attributeChangedCallback s n o v).log = s.log ∧
    (attributeChangedCallback s n o v).validationError = s.validationError ∧
    (attributeChangedCallback s n o v).inputNode.isSome = s.inputNode.isSome := by
  unfold attributeChangedCallback
  cases hs : s.inputNode <;> cases v <;> simp [hs]

theorem Host.setAttribute_fields (s : Host) (n v : String) :
    (s.setAttribute n v).attrs = attrSet s.attrs (asciiLower n) v ∧
    (s.setAttribute n v).invalid = s.invalid ∧
    (s.setAttribute n v).pristine = s.pristine ∧
    (s.setAttribute n v).internals = s.internals ∧
    (s.setAttribute n v).log = s.log ∧
    (s.setAttribute n v).validationError = s.validationError ∧
    (s.setAttribute n v).inputNode.isSome = s.inputNode.isSome := by
  unfold Host.setAttribute
  simp only
  split
  · have := attributeChangedCallback_fields
      { s with attrs := attrSet s.attrs (asciiLower n) v } (asciiLower n)
      (attrGet s.attrs (asciiLower n)) (some v)
    simpa using this
  · simp

theorem Host.removeAttribute_fields (s : Host) (n : String) :
    (s.removeAttribute n).attrs = attrRemove s.attrs (asciiLower n) ∧
    (s.removeAttribute n).invalid = s.invalid ∧
    (s.removeAttribute n).pristine = s.pristine ∧
    (s.removeAttribute n).internals = s.internals ∧
    (s.removeAttribute n).log = s.log ∧
    (s.removeAttribute n).validationError = s.validationError ∧
    (s.removeAttribute n).inputNode.isSome = s.inputNode.isSome := by
  cases hg : attrGet s.attrs (asciiLower n) with
  | none => simp [Host.removeAttribute, hg, attrRemove_of_attrGet_none _ _ hg]
  | some old =>
    simp only [Host.removeAttribute, hg]
    split
    · have := attributeChangedCallback_fields
        { s with attrs := attrRemove s.attrs (asciiLower n) } (asciiLower n) (some old) none
      simpa using this
    · simp

theorem pristineGate_congr {s t : Host}
    (h1 : hasAttribute t.attrs "invalid" = hasAttribute s.attrs "invalid")
    (h2 : t.invalid = s.invalid) (h3 : t.pristine = s.pristine) (h : PristineGate s) :
    PristineGate t := by
  unfold PristineGate at *
  rw [h1, h2, h3]
  exact h

theorem pristineGate_setAttribute (s : Host) (n v : String) (hn : asciiLower n ≠ "invalid")
    (h : PristineGate s) : PristineGate (s.setAttribute n v) := by
  have hf := Host.setAttribute_fields s n v
  refine pristineGate_congr ?_ hf.2.1 hf.2.2.1 h
  rw [hf.1]
  exact hasAttribute_attrSet_ne _ _ _ _ (by simpa using hn)

theorem pristineGate_removeAttribute (s : Host) (n : String) (hn : asciiLower n ≠ "invalid")
    (h : PristineGate s) : PristineGate (s.removeAttribute n) := by
  have hf := Host.removeAttribute_fields s n
  refine pristineGate_congr ?_ hf.2.1 hf.2.2.1 h
  rw [hf.1]
  exact hasAttribute_attrRemove_ne _ _ _ (by simpa using hn)

theorem pristineGate_attributeChangedCallback (s : Host) (n : String) (o v : Option String)
    (h : PristineGate s) : PristineGate (attributeChangedCallback s n o v) := by
  have hf := attributeChangedCallback_fields s n o v
  exact pristineGate_congr (by rw [hf.1]) hf.2.1 hf.2.2.1 h

/-! ## The attribute replay of `set inputNode`, by kind of attribute -/

theorem replayAttribute_of_required (s : Host) (a : String) (h : asciiLower a = "required") :
    replayAttribute s a =
      if hasAttribute s.attrs "required" = true then
        { s with inputNode := s.inputNode.map (fun (n : InputNode) => n.setAttribute "required" "true") }
      else s := by
  unfold replayAttribute
  cases hr : hasAttribute s.attrs "required" <;>
    simp [h, hr, JSValue.truthy, JSValue.toString]

theorem replayAttribute_of_plain (s : Host) (a : String) (h1 : asciiLower a ≠ "required")
    (h2 : asciiLower a ≠ "minlength") :
    replayAttribute s a =
      match attrGet s.attrs (asciiLower (asciiLower a)) with
      | none => s
      | some v =>
        { s with inputNode :=
            s.inputNode.map (fun (n : InputNode) => n.setAttribute (asciiLower a) v) } := by
  unfold replayAttribute
  cases hg : attrGet s.attrs (asciiLower (asciiLower a)) <;>
    simp [h1, h2, hg, getAttribute, JSValue.ofOption, JSValue.toString]

theorem replayAttribute_of_minlength (s : Host) (a : String) (h : asciiLower a = "minlength") :
    replayAttribute s a =
      match attrGet s.attrs "minlength" with
      | none => s
      | some v =>
        if hasAttribute s.attrs "pattern" = true then s.logEffect .warn
        else
          let f : InputNode → InputNode := fun n => n.setAttribute "pattern" (".\x7b" ++ v ++ ",\x7d")
          let s1 : Host := { s with inputNode := s.inputNode.map f }
          let s2 := s1.setAttribute "pattern" (".\x7b" ++ v ++ ",\x7d")
          if hasAttribute s2.attrs "data-tooshort" = true then
            s2.setAttribute "data-patternmismatch"
              (JSValue.ofOption (getAttribute s2.attrs "data-tooshort")).toString
          else s2 := by
  unfold replayAttribute
  cases hg : attrGet s.attrs "minlength" <;>
    simp [h, hg, getAttribute, JSValue.ofOption, JSValue.toString]

theorem pristineGate_replayAttribute (s : Host) (a : String) (h : PristineGate s) :
    PristineGate (replayAttribute s a) := by
  by_cases h1 : asciiLower a = "required"
  · rw [replayAttribute_of_required s a h1]
    split
    · exact pristineGate_congr rfl rfl rfl h
    · exact h
  · by_cases h2 : asciiLower a = "minlength"
    · rw [replayAttribute_of_minlength s a h2]
      split
      · exact h
      · next v _ =>
        split
        · exact pristineGate_congr rfl rfl rfl h
        · have hs1 (f : InputNode → InputNode) :
              PristineGate { s with inputNode := s.inputNode.map f } :=
            pristineGate_congr rfl rfl rfl h
          have hs2 := pristineGate_setAttribute _ "pattern" (".\x7b" ++ v ++ ",\x7d")
            (by decide) (hs1 (fun n => n.setAttribute "pattern" (".\x7b" ++ v ++ ",\x7d")))
          simp only
          split
          · exact pristineGate_setAttribute _ _ _ (by decide) hs2
          · exact hs2
    · rw [replayAttribute_of_plain s a h1 h2]
      split
      · exact h
      · exact pristineGate_congr rfl rfl rfl h

theorem pristineGate_foldl_replay (l : List String) (s : Host) (h : PristineGate s) :
    PristineGate (l.foldl replayAttribute s) := by
  induction l generalizing s with
  | nil => exact h
  | cons a l ih => exact ih _ (pristineGate_replayAttribute s a h)

/-! ## Pristine gating is invariant -/

theorem pristineGate_construct (attrs : Attrs) : PristineGate (construct attrs) := by
  have h := pristineGate_setInvalid_false
    { attrs := attrs, inputNode := none, invalid := false, pristine := false,
      validationError := none,
      internals := { validity := ValidityState.ofFn (fun _ => false), validationMessage := "",
                     formValue := none },
      log := [] }
  constructor
  · intro ha
    exact h.1 ha
  · intro hi
    have := h.1
    simp [construct, Host.setInvalid_eq] at hi

theorem pristineGate_invalidListener (s : Host) (e : Event) :
    PristineGate (invalidListener s e).1 := by
  rw [invalidListener_fst]
  exact ⟨fun _ => rfl, fun _ => rfl⟩

theorem pristineGate_fire (s : Host) (e : Event) (h : PristineGate s) :
    PristineGate (s.fire e).1 := by
  unfold Host.fire
  split
  · split
    · exact pristineGate_invalidListener s e
    · split
      · exact pristineGate_congr rfl rfl rfl h
      · exact h
  · exact h

theorem pristineGate_logEffect (s : Host) (e : Effect) (h : PristineGate s) :
    PristineGate (s.logEffect e) :=
  pristineGate_congr rfl rfl rfl h

theorem pristineGate_dispatchEvent (s : Host) (e : Event) (h : PristineGate s) :
    PristineGate (s.dispatchEvent e).1 :=
  pristineGate_fire _ e (pristineGate_logEffect s _ h)

theorem pristineGate_fireInvalid (s : Host) (h : PristineGate s) :
    PristineGate s.fireInvalid.1 :=
  pristineGate_fire _ _ (pristineGate_logEffect s _ h)

theorem pristineGate_checkValidity (p : Platform) (s : Host) (h : PristineGate s) :
    PristineGate (s.checkValidity p).1 := by
  unfold Host.checkValidity
  split
  · exact pristineGate_fireInvalid s h
  · exact h

theorem pristineGate_reportValidity (p : Platform) (s : Host) (h : PristineGate s) :
    PristineGate (s.reportValidity p).1 := by
  unfold Host.reportValidity
  simp only
  split
  · split
    · exact pristineGate_fireInvalid _ (pristineGate_logEffect s _ h)
    · exact pristineGate_logEffect _ _ (pristineGate_fireInvalid _ (pristineGate_logEffect s _ h))
  · exact pristineGate_logEffect s _ h

theorem pristineGate_setValidity (s : Host) (d : List (String × Bool)) (m : Option String)
    (h : PristineGate s) : PristineGate (state (s.setValidity d m)) := by
  unfold Host.setValidity
  simp only
  split
  · exact pristineGate_logEffect s _ h
  · exact pristineGate_congr rfl rfl rfl h

theorem pristineGate_setCustomValidity (s : Host) (m : String) (h : PristineGate s) :
    PristineGate (state (setCustomValidity s m)) :=
  pristineGate_setValidity s _ _ h

theorem pristineGate_setErrorMessage (p : Platform) (s : Host) (m : String)
    (h : PristineGate s) : PristineGate (state (setErrorMessage p s m)) := by
  unfold setErrorMessage
  have h1 : PristineGate { s with validationError := some "customError" } :=
    pristineGate_congr rfl rfl rfl h
  have h2 := pristineGate_setCustomValidity _ m h1
  simp only
  cases hc : setCustomValidity { s with validationError := some "customError" } m with
  | error s2 => simpa [hc, state] using h2
  | ok s2 =>
    rw [hc] at h2
    exact pristineGate_reportValidity p s2 h2

theorem pristineGate_validateInput (p : Platform) (s : Host) (h : PristineGate s) :
    PristineGate (state (validateInput p s)) :=
  (validateInput_state p s).2 h

theorem pristineGate_setValue (p : Platform) (s : Host) (value : String) (h : PristineGate s) :
    PristineGate (state (setValue p s value)) := by
  unfold setValue
  split
  · exact h
  · exact pristineGate_validateInput p _ (pristineGate_congr rfl rfl rfl h)

theorem pristineGate_formResetCallback (p : Platform) (s : Host) (h : PristineGate s) :
    PristineGate (state (formResetCallback p s)) :=
  pristineGate_setValue p s _ h

theorem pristineGate_changeListener (p : Platform) (s : Host) (e : Event) (h : PristineGate s) :
    PristineGate (state (changeListener p s e)) := by
  unfold changeListener
  have h1 : PristineGate (if s.validateOnChange = true then { s with pristine := false } else s) := by
    split
    · exact ⟨fun ha => h.1 ha, fun _ => rfl⟩
    · exact h
  simp only
  split
  · exact h1
  · next node hn =>
    have h2 := pristineGate_setValue p _ (node.getValue p) h1
    cases hc : setValue p (if s.validateOnChange = true then { s with pristine := false } else s)
        (node.getValue p) with
    | error s2 => simpa [hc, state] using h2
    | ok s2 =>
      rw [hc] at h2
      exact pristineGate_validateInput p _ (pristineGate_dispatchEvent s2 _ h2)

theorem pristineGate_inputNodeDispatchEvent (p : Platform) (s : Host) (e : Event)
    (h : PristineGate s) : PristineGate (inputNodeDispatchEvent p s e) := by
  unfold inputNodeDispatchEvent
  split
  · exact pristineGate_changeListener p s e h
  · exact h

theorem pristineGate_setInputNode (p : Platform) (s : Host) (node : InputNode)
    (h : PristineGate s) : PristineGate (state (setInputNode p s node)) := by
  unfold setInputNode
  have h1 : PristineGate { s with inputNode := some node } := pristineGate_congr rfl rfl rfl h
  have h2 := pristineGate_foldl_replay observedAttributes _ h1
  apply pristineGate_validateInput
  split
  · exact h2
  · exact pristineGate_setAttribute _ "tabindex" "0" (by decide) h2

theorem pristineGate_setDisabled (s : Host) (b : Bool) (h : PristineGate s) :
    PristineGate (state (setDisabled s b)) := by
  unfold setDisabled
  split
  · exact h
  · next node hn =>
    have h1 (n : InputNode) : PristineGate { s with inputNode := some n } :=
      pristineGate_congr rfl rfl rfl h
    cases b with
    | true => exact pristineGate_setAttribute _ "disabled" "" (by decide) (h1 _)
    | false => exact pristineGate_removeAttribute _ "disabled" (by decide) (h1 _)

theorem pristineGate_setDefaultValue (s : Host) (value : String) (h : PristineGate s) :
    PristineGate (state (setDefaultValue s value)) := by
  unfold setDefaultValue
  split
  · exact h
  · next node hn =>
    have h1 : PristineGate { s with inputNode := some (node.setAttribute "value" value) } :=
      pristineGate_congr rfl rfl rfl h
    exact pristineGate_setAttribute _ "value" value (by decide) h1

theorem reachable_pristineGate (p : Platform) (s : Host) (h : Reachable p s) :
    PristineGate s := by
  induction h with
  | construct attrs => exact pristineGate_construct attrs
  | bind s node _ _ ih => exact pristineGate_setInputNode p s node ih
  | setAttribute s name value _ hn ih => exact pristineGate_setAttribute s name value hn ih
  | removeAttribute s name _ hn ih => exact pristineGate_removeAttribute s name hn ih
  | attributeChanged s name o v _ ih => exact pristineGate_attributeChangedCallback s name o v ih
  | innerMutate s node node1 _ _ ih => exact pristineGate_congr rfl rfl rfl ih
  | innerDispatch s e _ ih => exact pristineGate_inputNodeDispatchEvent p s e ih
  | setValue s value _ ih => exact pristineGate_setValue p s value ih
  | validateInput s _ ih => exact pristineGate_validateInput p s ih
  | dispatchEvent s e _ ih => exact pristineGate_dispatchEvent s e ih
  | checkValidity s _ ih => exact pristineGate_checkValidity p s ih
  | reportValidity s _ ih => exact pristineGate_reportValidity p s ih
  | setCustomValidity s m _ ih => exact pristineGate_setCustomValidity s m ih
  | setErrorMessage s m _ ih => exact pristineGate_setErrorMessage p s m ih
  | formReset s _ ih => exact pristineGate_formResetCallback p s ih
  | setDisabled s b _ ih => exact pristineGate_setDisabled s b ih
  | setDefaultValue s value _ ih => exact pristineGate_setDefaultValue s value ih

/-- C1: in every state reachable from construction through the operations of the class
(binding, attribute changes, events of the inner control, value set, `validateInput`,
`invalid` events, `checkValidity`, `reportValidity`, `setCustomValidity`,
`setErrorMessage`, form reset), on any platform and whatever the inner control reports,
a pristine host reads `invalid = false` and does not carry the reflected `invalid`
attribute. -/
theorem pristine_host_not_invalid (p : Platform) (s : Host) (h : Reachable p s)
    (hp : s.pristine = true) :
    s.invalid = false ∧ hasAttribute s.attrs "invalid" = false := by
  have hg := reachable_pristineGate p s h
  have hi : s.invalid = false := by
    cases hinv : s.invalid with
    | false => rfl
    | true =>
      have := hg.2 hinv
      rw [hp] at this
      exact absurd this (by simp)
  refine ⟨hi, ?_⟩
  cases ha : hasAttribute s.attrs "invalid" with
  | false => rfl
  | true =>
    have := hg.1 ha
    rw [hi] at this
    exact absurd this (by simp)

/-- Witness of C1: a required, empty field bound on a platform that reports
`valueMissing` is pristine, and its `invalid` flag reads false. -/
theorem pristine_host_not_invalid_witness :
    (boundHost missingPlatform [("required", "")]).pristine = true ∧
    (missingPlatform.validity freshNode).valid = false ∧
    (boundHost missingPlatform [("required", "")]).invalid = false ∧
    hasAttribute (boundHost missingPlatform [("required", "")]).attrs "invalid" = false :=
  ⟨by decide, by decide,
    pristine_host_not_invalid missingPlatform (boundHost missingPlatform [("required", "")])
      (Reachable.bind _ _ (Reachable.construct _) rfl) (by decide)⟩

/-! ## Closed form of `validateInput` -/

theorem setInvalid_false_specMessage (p : Platform) (s : Host) (node : InputNode) (g : Flag) :
    specMessage p (s.setInvalid false).attrs node g = specMessage p s.attrs node g :=
  specMessage_congr p _ _ node g (sameExceptInvalid_setInvalid s false).2.2.2

theorem validateInput_of_invalid (p : Platform) (s : Host) (node : InputNode)
    (hn : s.inputNode = some node) (hv : (p.validity node).valid = false)
    (hm : ∀ g ∈ trueReasons (p.validity node), specMessage p s.attrs node g ≠ "") :
    validateInput p s =
      .ok (match (trueReasons (p.validity node)).getLast? with
           | none => s.setInvalid false
           | some g =>
             { afterPass p (s.setInvalid false) node g with
                 log := s.log ++ (trueReasons (p.validity node)).flatMap
                          (passEffects p (s.setInvalid false) node) }) := by
  have h0 := sameExceptInvalid_setInvalid s false
  have hn0 : (s.setInvalid false).inputNode = some node := by rw [h0.2.1, hn]
  have hl : (s.setInvalid false).log = s.log := by simp [Host.setInvalid_eq]
  unfold validateInput
  simp only [hn, hv, if_true]
  rw [forIn_keys p node _ _ hv,
    forIn_true_flags p node _ _ _ hn0 (fun g hg => mem_trueReasons hg)
      (fun g hg => by rw [setInvalid_false_specMessage]; exact hm g hg), hl]

theorem validateInput_of_valid (p : Platform) (s : Host) (node : InputNode)
    (hn : s.inputNode = some node) (hv : (p.validity node).valid = true) :
    validateInput p s =
      .ok { s.setInvalid false with
              log := s.log ++ [.setValidity [] none]
              internals := { s.internals with
                               validity := ValidityState.ofFlags []
                               validationMessage := "" } } := by
  unfold validateInput
  simp only [hn, hv, Bool.true_eq_false, if_false, Host.setValidity_nil]
  simp [Host.setInvalid_eq]

theorem validateInput_ok_messages (p : Platform) (s t : Host) (node : InputNode)
    (hn : s.inputNode = some node) (hv : (p.validity node).valid = false)
    (hok : validateInput p s = .ok t) :
    ∀ g ∈ trueReasons (p.validity node), specMessage p s.attrs node g ≠ "" := by
  have h0 := sameExceptInvalid_setInvalid s false
  have hn0 : (s.setInvalid false).inputNode = some node := by rw [h0.2.1, hn]
  unfold validateInput at hok
  simp only [hn, hv, if_true] at hok
  rw [forIn_keys p node _ _ hv] at hok
  intro g hg
  have := forIn_true_flags_messages p node _ _ _ t hn0 (fun g hg => mem_trueReasons hg) hok g hg
  rwa [setInvalid_false_specMessage] at this

/-! ## The active reason and the truthfulness of `checkValidity` -/

/-- C7, as the code has it: on a bound host whose inner snapshot is invalid and whose
true reasons all resolve to a non-empty message, `validateInput` completes; afterwards
exactly one reason is set in the aggregated validity, namely the last true reason of the
snapshot in snapshot order, `validationError` names that reason, and the `invalid` flag
equals `!pristine && !snapshot.valid`; the pristine flag is unchanged. -/
theorem validateInput_last_reason_wins (p : Platform) (s : Host) (node : InputNode)
    (hn : s.inputNode = some node) (hv : (p.validity node).valid = false)
    (hm : ∀ g ∈ trueReasons (p.validity node), specMessage p s.attrs node g ≠ "") :
    ∃ t f, validateInput p s = .ok t ∧
      (trueReasons (p.validity node)).getLast? = some f ∧
      (∀ g, t.internals.validity.flag g = true ↔ g = f) ∧
      t.validationError = some f.name ∧
      t.invalid = (!s.pristine && !(p.validity node).valid) ∧
      t.pristine = s.pristine := by
  have hc := validateInput_of_invalid p s node hn hv hm
  cases hl : (trueReasons (p.validity node)).getLast? with
  | none => exact absurd (List.getLast?_eq_none_iff.mp hl) (trueReasons_ne_nil hv)
  | some f =>
    rw [hl] at hc
    refine ⟨_, f, hc, rfl, ?_, ?_, ?_, ?_⟩
    · intro g
      simp [afterPass, written, ValidityState.ofFlags_single_flag]
    · simp [afterPass, written]
    · simp [afterPass, written, Host.setInvalid_eq, hv]
    · simp [afterPass, written, Host.setInvalid_eq]

/-- Witness of C7 as amended: a touched host on a platform that reports `rangeUnderflow`
and `stepMismatch` together. -/
theorem validateInput_last_reason_wins_witness :
    ∃ t f, validateInput underflowStepPlatform (touchedHost underflowStepPlatform []) = .ok t ∧
      (trueReasons (underflowStepPlatform.validity assignedNode)).getLast? = some f ∧
      (∀ g, t.internals.validity.flag g = true ↔ g = f) ∧
      t.validationError = some f.name ∧
      t.invalid = (!(touchedHost underflowStepPlatform []).pristine &&
        !(underflowStepPlatform.validity assignedNode).valid) ∧
      t.pristine = (touchedHost underflowStepPlatform []).pristine :=
  validateInput_last_reason_wins underflowStepPlatform (touchedHost underflowStepPlatform [])
    assignedNode (by decide) (by decide) (by decide)

/-- Counterexample to C7 as stated: a bound required field carrying an empty
`data-valuemissing`. The inner snapshot is invalid, the message `validateInput` resolves
for `valueMissing` is empty, `setValidity` refuses it and `validateInput` throws: no
reason is set in the aggregated validity, which still reports valid. -/
theorem validateInput_empty_message_sets_no_reason :
    (boundHost missingPlatform [("required", ""), ("data-valuemissing", "")]).inputNode =
      some { attrs := [("required", "true")], value := "", focused := false } ∧
    (missingPlatform.validity
      { attrs := [("required", "true")], value := "", focused := false }).valid = false ∧
    completed (validateInput missingPlatform
      (boundHost missingPlatform [("required", ""), ("data-valuemissing", "")])) = false ∧
    (state (validateInput missingPlatform
      (boundHost missingPlatform [("required", ""), ("data-valuemissing", "")]))).internals.validity
      = ValidityState.ofFn (fun _ => false) ∧
    (state (validateInput missingPlatform
      (boundHost missingPlatform
        [("required", ""), ("data-valuemissing", "")]))).internals.validity.valid = true := by
  decide

/-- C4, as the code has it: on a bound host whose true reasons all resolve to a
non-empty message, `validateInput` completes, and on the resulting host, when it is a
candidate for constraint validation, `checkValidity()` returns exactly the `valid` flag
of the inner control's snapshot: false for an invalid snapshot and true for a valid one,
whatever the pristine flag is. On a host that is barred from constraint validation
`checkValidity()` returns true. -/
theorem checkValidity_truthful (p : Platform) (s : Host) (node : InputNode)
    (hn : s.inputNode = some node)
    (hm : ∀ g ∈ trueReasons (p.validity node), specMessage p s.attrs node g ≠ "") :
    ∃ t, validateInput p s = .ok t ∧
      (p.willValidate t.attrs = true → (t.checkValidity p).2 = (p.validity node).valid) ∧
      (p.willValidate t.attrs = false → (t.checkValidity p).2 = true) := by
  cases hv : (p.validity node).valid with
  | true =>
    refine ⟨_, validateInput_of_valid p s node hn hv, fun _ => ?_, fun hw => ?_⟩
    · simp [Host.checkValidity, ValidityState.ofFlags_nil_valid]
    · simp [Host.checkValidity, hw]
  | false =>
    have hc := validateInput_of_invalid p s node hn hv hm
    cases hl : (trueReasons (p.validity node)).getLast? with
    | none => exact absurd (List.getLast?_eq_none_iff.mp hl) (trueReasons_ne_nil hv)
    | some f =>
      rw [hl] at hc
      refine ⟨_, hc, fun hw => ?_, fun hw => ?_⟩
      · have hw1 : p.willValidate (afterPass p (s.setInvalid false) node f).attrs = true := hw
        simp [Host.checkValidity, afterPass, written, ValidityState.ofFlags_single_valid] at hw1 ⊢
        simp [hw1]
      · simp [Host.checkValidity, hw]

/-- Witness of C4 as amended: a pristine required field without value; `checkValidity()`
is false although the host is pristine and its `invalid` flag is false. -/
theorem checkValidity_truthful_witness :
    (boundHost missingPlatform [("required", "")]).pristine = true ∧
    ∃ t, validateInput missingPlatform (boundHost missingPlatform [("required", "")]) = .ok t ∧
      (missingPlatform.willValidate t.attrs = true →
        (t.checkValidity missingPlatform).2 = (missingPlatform.validity
          { attrs := [("required", "true")], value := "", focused := false }).valid) ∧
      (missingPlatform.willValidate t.attrs = false →
        (t.checkValidity missingPlatform).2 = true) :=
  ⟨by decide,
    checkValidity_truthful missingPlatform (boundHost missingPlatform [("required", "")])
      { attrs := [("required", "true")], value := "", focused := false } (by decide) (by decide)⟩

/-- Counterexample to C4 as stated: two bound required fields without value, whose inner
snapshot is invalid and on which `checkValidity()` returns true after `validateInput`
ran. The first carries an empty `data-valuemissing`: `setValidity` refuses the empty
message, `validateInput` throws and the aggregated validity stays valid. The second
carries `readonly`: `validateInput` completes, but a read-only host is barred from
constraint validation. -/
theorem checkValidity_true_on_invalid_snapshot :
    ((boundHost missingPlatform [("required", ""), ("data-valuemissing", "")]).inputNode =
        some { attrs := [("required", "true")], value := "", focused := false } ∧
      (missingPlatform.validity
        { attrs := [("required", "true")], value := "", focused := false }).valid = false ∧
      completed (validateInput missingPlatform
        (boundHost missingPlatform [("required", ""), ("data-valuemissing", "")])) = false ∧
      ((state (validateInput missingPlatform
        (boundHost missingPlatform [("required", ""), ("data-valuemissing", "")]))).checkValidity
          missingPlatform).2 = true) ∧
    ((boundHost barringPlatform [("required", ""), ("readonly", "")]).inputNode =
        some { attrs := [("required", "true")], value := "", focused := false } ∧
      (barringPlatform.validity
        { attrs := [("required", "true")], value := "", focused := false }).valid = false ∧
      completed (validateInput barringPlatform
        (boundHost barringPlatform [("required", ""), ("readonly", "")])) = true ∧
      ((state (validateInput barringPlatform
        (boundHost barringPlatform [("required", ""), ("readonly", "")]))).checkValidity
          barringPlatform).2 = true) := by
  decide

/-! ## The messages written by `validateInput` -/

theorem writes_append (a b : List Effect) : writes (a ++ b) = writes a ++ writes b := by
  induction a with
  | nil => rfl
  | cons e a ih => cases e <;> simp [writes, ih]

theorem writes_reportEffects (p : Platform) (s : Host) : writes (reportEffects p s) = [] := by
  unfold reportEffects
  split
  · rfl
  · split <;> rfl

theorem writes_passEffects (p : Platform) (s : Host) (node : InputNode) (f : Flag) :
    writes (passEffects p s node f) = [([(f.name, true)], some (specMessage p s.attrs node f))] := by
  unfold passEffects
  split
  · rfl
  · simp [writes, writes_reportEffects]

theorem forIn_true_flags_writes (p : Platform) (node : InputNode) (v : ValidityState)
    (gs : List Flag) (s : Host) (hn : s.inputNode = some node)
    (ht : ∀ g ∈ gs, v.flag g = true) :
    ∃ L, L <+: gs ∧
      writes (state (forIn (validateState p node v) (gs.map Flag.name) s)).log =
        writes s.log ++ L.map (fun f => ([(f.name, true)], some (specMessage p s.attrs node f))) ∧
      (completed (forIn (validateState p node v) (gs.map Flag.name) s) = true → L = gs) := by
  induction gs generalizing s with
  | nil => exact ⟨[], List.prefix_refl _, by simp [forIn, state], fun _ => rfl⟩
  | cons g gs ih =>
    by_cases hm : specMessage p s.attrs node g = ""
    · refine ⟨[g], ?_, ?_, ?_⟩
      · exact List.prefix_iff_eq_append.mpr (by simp)
      · simp [forIn, validateState_of_true_empty p node v s g (ht g (List.mem_cons_self _ _)) hm,
          state, refused, writes_append, writes, hm]
      · simp [forIn, validateState_of_true_empty p node v s g (ht g (List.mem_cons_self _ _)) hm,
          completed]
    · have hg := validateState_of_true p node v s g hn (ht g (List.mem_cons_self _ _)) hm
      have hn1 : (afterPass p s node g).inputNode = some node := by
        simpa [afterPass, written] using hn
      obtain ⟨L, hL, hw, hc⟩ :=
        ih (afterPass p s node g) hn1 (fun h hh => ht h (List.mem_cons_of_mem _ hh))
      refine ⟨g :: L, ?_, ?_, ?_⟩
      · exact List.cons_prefix_cons.mpr ⟨rfl, hL⟩
      · simp only [List.map_cons, forIn, hg]
        simp only [afterPass_specMessage] at hw
        rw [hw]
        simp [afterPass, writes_append, writes_passEffects]
      · simp only [List.map_cons, forIn, hg]
        intro h
        rw [hc h]

/-- C2: on a bound host whose inner snapshot is invalid, the `setValidity` calls of one
run of `validateInput` are made, in snapshot order, for reasons that are true in the
snapshot (for all of them when the run completes), each call sets exactly its reason, and
the message of the call for the reason `R` is the value of the host attribute
`data-<R lower-cased>` when the host carries it and the inner control's native validation
message otherwise. -/
theorem validateInput_messages (p : Platform) (s : Host) (node : InputNode)
    (hn : s.inputNode = some node) (hv : (p.validity node).valid = false) :
    ∃ L, L <+: trueReasons (p.validity node) ∧
      writes (state (validateInput p s)).log =
        writes s.log ++ L.map (fun f => ([(f.name, true)], some (specMessage p s.attrs node f))) ∧
      (completed (validateInput p s) = true → L = trueReasons (p.validity node)) := by
  have h0 := sameExceptInvalid_setInvalid s false
  have hn0 : (s.setInvalid false).inputNode = some node := by rw [h0.2.1, hn]
  have hl : (s.setInvalid false).log = s.log := by simp [Host.setInvalid_eq]
  obtain ⟨L, hL, hw, hc⟩ := forIn_true_flags_writes p node (p.validity node)
    (trueReasons (p.validity node)) (s.setInvalid false) hn0 (fun g hg => mem_trueReasons hg)
  have hfun : (fun f => (([(f.name, true)], some (specMessage p (s.setInvalid false).attrs node f))
      : List (String × Bool) × Option String))
      = fun f => ([(f.name, true)], some (specMessage p s.attrs node f)) := by
    funext f
    rw [setInvalid_false_specMessage]
  have he : validateInput p s =
      forIn (validateState p node (p.validity node))
        ((trueReasons (p.validity node)).map Flag.name) (s.setInvalid false) := by
    unfold validateInput
    simp only [hn, hv, if_true]
    exact forIn_keys p node _ _ hv
  rw [he]
  rw [hfun, hl] at hw
  exact ⟨L, hL, hw, hc⟩

/-- Witness of C2: the host carries `data-rangeunderflow` but no `data-stepmismatch`, and
the inner control reports both reasons. -/
theorem validateInput_messages_witness :
    ∃ L, L <+: trueReasons (underflowStepPlatform.validity freshNode) ∧
      writes (state (validateInput underflowStepPlatform
          (boundHost underflowStepPlatform [("data-rangeunderflow", "Must be greater than 5")]))).log =
        writes (boundHost underflowStepPlatform [("data-rangeunderflow", "Must be greater than 5")]).log
          ++ L.map (fun f => ([(f.name, true)], some (specMessage underflowStepPlatform
              (boundHost underflowStepPlatform
                [("data-rangeunderflow", "Must be greater than 5")]).attrs freshNode f))) ∧
      (completed (validateInput underflowStepPlatform
          (boundHost underflowStepPlatform [("data-rangeunderflow", "Must be greater than 5")])) = true →
        L = trueReasons (underflowStepPlatform.validity freshNode)) :=
  validateInput_messages underflowStepPlatform
    (boundHost underflowStepPlatform [("data-rangeunderflow", "Must be greater than 5")])
    freshNode (by decide) (by decide)

/-! ## The reports of `validateInput` -/

theorem count_flatMap_const (e : Effect) (f : Flag → List Effect) (k : Nat) (l : List Flag)
    (h : ∀ x, (f x).count e = k) : (l.flatMap f).count e = l.length * k := by
  induction l with
  | nil => simp
  | cons x l ih =>
    rw [List.flatMap_cons, List.count_append, ih, h x, List.length_cons]
    ring

theorem dispatched_append (a b : List Effect) :
    dispatched (a ++ b) = dispatched a ++ dispatched b := by
  induction a with
  | nil => rfl
  | cons e a ih => cases e <;> simp [dispatched, ih]

theorem dispatched_flatMap_nil (f : Flag → List Effect) (l : List Flag)
    (h : ∀ x, dispatched (f x) = []) : dispatched (l.flatMap f) = [] := by
  induction l with
  | nil => rfl
  | cons x l ih => rw [List.flatMap_cons, dispatched_append, ih, h x]; rfl

/-- C5, as the code has it: on a bound host that is not pristine, whose inner snapshot
is invalid and whose true reasons all resolve to a non-empty message, one run of
`validateInput` completes and reports once per true reason of the snapshot. With
`custom-error-display` it calls `dispatchEvent` with an `invalid` event as many times as
there are true reasons, never calls `reportValidity` and never reaches the native
report; without it, it calls `reportValidity` as many times as there are true reasons
and never calls `dispatchEvent`. -/
theorem validateInput_reports_per_reason (p : Platform) (s : Host) (node : InputNode)
    (hn : s.inputNode = some node) (hp : s.pristine = false)
    (hv : (p.validity node).valid = false)
    (hm : ∀ g ∈ trueReasons (p.validity node), specMessage p s.attrs node g ≠ "") :
    ∃ t, validateInput p s = .ok t ∧
      (s.customErrorDisplay = true →
        t.log.count (.dispatchEvent "invalid") =
          s.log.count (.dispatchEvent "invalid") + (trueReasons (p.validity node)).length ∧
        t.log.count .reportValidity = s.log.count .reportValidity ∧
        t.log.count .nativeReport = s.log.count .nativeReport) ∧
      (s.customErrorDisplay = false →
        t.log.count .reportValidity =
          s.log.count .reportValidity + (trueReasons (p.validity node)).length ∧
        dispatched t.log = dispatched s.log) := by
  have hc := validateInput_of_invalid p s node hn hv hm
  cases hl : (trueReasons (p.validity node)).getLast? with
  | none => exact absurd (List.getLast?_eq_none_iff.mp hl) (trueReasons_ne_nil hv)
  | some f =>
    rw [hl] at hc
    have hp0 : (s.setInvalid false).pristine = false := by simp [Host.setInvalid_eq, hp]
    have hc0 : (s.setInvalid false).customErrorDisplay = s.customErrorDisplay := by
      simp only [Host.customErrorDisplay]
      exact hasAttribute_setInvalid s false _ (by decide)
    refine ⟨_, hc, ?_, ?_⟩
    · intro hcust
      have hpe : ∀ x, passEffects p (s.setInvalid false) node x =
          [.setValidity [(x.name, true)] (some (specMessage p (s.setInvalid false).attrs node x)),
           .dispatchEvent "invalid"] := by
        intro x
        simp [passEffects, reportEffects, hp0, hc0, hcust]
      refine ⟨?_, ?_, ?_⟩
      · simp only [List.count_append]
        rw [count_flatMap_const _ _ 1 _ (fun x => by rw [hpe x]; simp [List.count_cons])]
        simp
      · simp only [List.count_append]
        rw [count_flatMap_const _ _ 0 _ (fun x => by rw [hpe x]; simp [List.count_cons])]
        simp
      · simp only [List.count_append]
        rw [count_flatMap_const _ _ 0 _ (fun x => by rw [hpe x]; simp [List.count_cons])]
        simp
    · intro hcust
      refine ⟨?_, ?_⟩
      · simp only [List.count_append]
        rw [count_flatMap_const _ _ 1 _ (fun x => by
          by_cases hw : p.willValidate (attrRemove (s.setInvalid false).attrs "invalid") = true <;>
            simp [passEffects, reportEffects, hp0, hc0, hcust, hw, List.count_cons])]
        simp
      · simp only [dispatched_append]
        rw [dispatched_flatMap_nil _ _ (fun x => by
          by_cases hw : p.willValidate (attrRemove (s.setInvalid false).attrs "invalid") = true <;>
            simp [passEffects, reportEffects, hp0, hc0, hcust, hw, dispatched])]
        simp

/-- Witness of C5 as amended: a touched host with `custom-error-display` whose inner
control reports two reasons. -/
theorem validateInput_reports_per_reason_witness :
    ∃ t, validateInput underflowStepPlatform
        (touchedHost underflowStepPlatform [("custom-error-display", "")]) = .ok t ∧
      ((touchedHost underflowStepPlatform [("custom-error-display", "")]).customErrorDisplay = true →
        t.log.count (.dispatchEvent "invalid") =
          (touchedHost underflowStepPlatform [("custom-error-display", "")]).log.count
            (.dispatchEvent "invalid") +
            (trueReasons (underflowStepPlatform.validity assignedNode)).length ∧
        t.log.count .reportValidity =
          (touchedHost underflowStepPlatform [("custom-error-display", "")]).log.count
            .reportValidity ∧
        t.log.count .nativeReport =
          (touchedHost underflowStepPlatform [("custom-error-display", "")]).log.count
            .nativeReport) ∧
      ((touchedHost underflowStepPlatform [("custom-error-display", "")]).customErrorDisplay = false →
        t.log.count .reportValidity =
          (touchedHost underflowStepPlatform [("custom-error-display", "")]).log.count
            .reportValidity + (trueReasons (underflowStepPlatform.validity assignedNode)).length ∧
        dispatched t.log =
          dispatched (touchedHost underflowStepPlatform [("custom-error-display", "")]).log) :=
  validateInput_reports_per_reason underflowStepPlatform
    (touchedHost underflowStepPlatform [("custom-error-display", "")]) assignedNode
    (by decide) (by decide) (by decide) (by decide)

/-- Counterexample to C5 as stated: a bound, non-pristine host with
`custom-error-display` whose inner control reports `rangeUnderflow` and `stepMismatch`
together; one run of `validateInput` dispatches two `invalid` events, not one. -/
theorem validateInput_two_signals :
    (touchedHost underflowStepPlatform [("custom-error-display", "")]).inputNode = some assignedNode ∧
    (touchedHost underflowStepPlatform [("custom-error-display", "")]).pristine = false ∧
    (touchedHost underflowStepPlatform [("custom-error-display", "")]).customErrorDisplay = true ∧
    (underflowStepPlatform.validity assignedNode).valid = false ∧
    (state (validateInput underflowStepPlatform
        (touchedHost underflowStepPlatform [("custom-error-display", "")]))).log.count
        (.dispatchEvent "invalid") =
      (touchedHost underflowStepPlatform [("custom-error-display", "")]).log.count
        (.dispatchEvent "invalid") + 2 := by
  decide

/-! ## The attribute replay, step by step -/

theorem innerAttr_map_setAttribute (s : Host) (n : InputNode) (hn : s.inputNode = some n)
    (a v m : String) :
    innerAttr { s with inputNode := s.inputNode.map (fun (x : InputNode) => x.setAttribute a v) } m
      = if asciiLower a = m then some v else innerAttr s m := by
  simp [innerAttr, hn, InputNode.setAttribute, attrGet_attrSet]

theorem innerAttr_setAttribute (s : Host) (n : InputNode) (hn : s.inputNode = some n)
    (a v m : String) :
    innerAttr (s.setAttribute a v) m =
      if asciiLower a ∈ observedAttributes ∧ asciiLower (asciiLower a) = m then some v
      else innerAttr s m := by
  unfold Host.setAttribute
  by_cases ho : asciiLower a ∈ observedAttributes
  · simp [ho, attributeChangedCallback, hn, innerAttr, InputNode.setAttribute, attrGet_attrSet]
  · simp [ho, innerAttr]

theorem replayAttribute_bound (s : Host) (a : String) (h : s.inputNode.isSome = true) :
    (replayAttribute s a).inputNode.isSome = true := by
  by_cases h1 : asciiLower a = "required"
  · rw [replayAttribute_of_required s a h1]
    split <;> simp [h]
  · by_cases h2 : asciiLower a = "minlength"
    · rw [replayAttribute_of_minlength s a h2]
      split
      · exact h
      · split
        · simpa [Host.logEffect] using h
        · simp only
          split
          · rw [(Host.setAttribute_fields _ _ _).2.2.2.2.2.2, (Host.setAttribute_fields _ _ _).2.2.2.2.2.2]
            simp [h]
          · rw [(Host.setAttribute_fields _ _ _).2.2.2.2.2.2]
            simp [h]
    · rw [replayAttribute_of_plain s a h1 h2]
      split <;> simp [h]

theorem foldl_replay_bound (l : List String) (s : Host) (h : s.inputNode.isSome = true) :
    (l.foldl replayAttribute s).inputNode.isSome = true := by
  induction l generalizing s with
  | nil => exact h
  | cons a l ih => exact ih _ (replayAttribute_bound s a h)

theorem replayAttribute_attrs_of_ne_minlength (s : Host) (a : String)
    (h : asciiLower a ≠ "minlength") : (replayAttribute s a).attrs = s.attrs := by
  by_cases h1 : asciiLower a = "required"
  · rw [replayAttribute_of_required s a h1]
    split <;> rfl
  · rw [replayAttribute_of_plain s a h1 h]
    split <;> rfl

theorem replayAttribute_attrs_of_pattern (s : Host) (a : String)
    (h : hasAttribute s.attrs "pattern" = true) : (replayAttribute s a).attrs = s.attrs := by
  by_cases h2 : asciiLower a = "minlength"
  · rw [replayAttribute_of_minlength s a h2]
    split
    · rfl
    · simp [h, Host.logEffect]
  · exact replayAttribute_attrs_of_ne_minlength s a h2

theorem foldl_replay_attrs_of_pattern (l : List String) (s : Host)
    (h : hasAttribute s.attrs "pattern" = true) : (l.foldl replayAttribute s).attrs = s.attrs := by
  induction l generalizing s with
  | nil => rfl
  | cons a l ih =>
    have h1 := replayAttribute_attrs_of_pattern s a h
    simp only [List.foldl_cons]
    rw [ih _ (by rw [h1]; exact h), h1]

theorem foldl_replay_attrs_of_ne_minlength (l : List String) (s : Host)
    (h : ∀ a ∈ l, asciiLower a ≠ "minlength") : (l.foldl replayAttribute s).attrs = s.attrs := by
  induction l generalizing s with
  | nil => rfl
  | cons a l ih =>
    simp only [List.foldl_cons]
    rw [ih _ (fun b hb => h b (List.mem_cons_of_mem _ hb)),
      replayAttribute_attrs_of_ne_minlength s a (h a (List.mem_cons_self _ _))]

theorem Host.setAttribute_observed_bound (s : Host) (n : InputNode) (hn : s.inputNode = some n)
    (a v : String) (ha : asciiLower a ∈ observedAttributes) :
    s.setAttribute a v =
      { s with
          attrs := attrSet s.attrs (asciiLower a) v
          inputNode := some (n.setAttribute (asciiLower a) v) } := by
  simp [Host.setAttribute, ha, attributeChangedCallback, hn]

/-- The rewrite of `minlength` to `pattern` in `set inputNode`, on a bound host that
carries `minlength` and no `pattern`. -/
theorem replayAttribute_rewrite (s : Host) (n : InputNode) (hn : s.inputNode = some n)
    (v : String) (hm : attrGet s.attrs "minlength" = some v)
    (hp : hasAttribute s.attrs "pattern" = false) :
    replayAttribute s "minlength" =
      { s with
          inputNode := some ((n.setAttribute "pattern" (".\x7b" ++ v ++ ",\x7d")).setAttribute
            "pattern" (".\x7b" ++ v ++ ",\x7d"))
          attrs :=
            match attrGet s.attrs "data-tooshort" with
            | some m =>
              attrSet (attrSet s.attrs "pattern" (".\x7b" ++ v ++ ",\x7d")) "data-patternmismatch" m
            | none => attrSet s.attrs "pattern" (".\x7b" ++ v ++ ",\x7d") } := by
  rw [replayAttribute_of_minlength s _ (by decide)]
  simp only [hm, hp, Bool.false_eq_true, if_false]
  have hobs : asciiLower "pattern" ∈ observedAttributes := by decide
  have hnot : asciiLower "data-patternmismatch" ∉ observedAttributes := by decide
  rw [Host.setAttribute_observed_bound _ (n.setAttribute "pattern" (".\x7b" ++ v ++ ",\x7d"))
    (by simp [hn]) _ _ hobs]
  simp only [asciiLower_pattern, Host.setAttribute_of_not_observed _ _ _ hnot,
    asciiLower_dataPatternmismatch]
  cases ht : attrGet s.attrs "data-tooshort" with
  | none => simp [hasAttribute, getAttribute, attrGet_attrSet, ht]
  | some m => simp [hasAttribute, getAttribute, attrGet_attrSet, ht, JSValue.ofOption, JSValue.toString]

/-- One step of the replay never writes the inner control's `minlength`. -/
theorem replayAttribute_innerAttr_minlength (s : Host) (a : String)
    (ha : a ∈ observedAttributes) (hb : s.inputNode.isSome = true) :
    innerAttr (replayAttribute s a) "minlength" = innerAttr s "minlength" := by
  obtain ⟨n, hn⟩ := Option.isSome_iff_exists.mp hb
  have hl := asciiLower_observed a ha
  by_cases h1 : a = "required"
  · subst h1
    rw [replayAttribute_of_required s _ (by decide)]
    split
    · rw [innerAttr_map_setAttribute s n hn]
      simp
    · rfl
  · by_cases h2 : a = "minlength"
    · subst h2
      cases hm : attrGet s.attrs "minlength" with
      | none =>
        rw [replayAttribute_of_minlength s _ (by decide)]
        simp [hm]
      | some v =>
        cases hp : hasAttribute s.attrs "pattern" with
        | true =>
          rw [replayAttribute_of_minlength s _ (by decide)]
          simp [hm, hp, innerAttr, Host.logEffect]
        | false =>
          rw [replayAttribute_rewrite s n hn v hm hp]
          simp [innerAttr, hn, InputNode.setAttribute, attrGet_attrSet]
    · rw [replayAttribute_of_plain s a (by rw [hl]; exact h1) (by rw [hl]; exact h2)]
      split
      · rfl
      · rw [innerAttr_map_setAttribute s n hn]
        simp [hl, h2]

theorem foldl_replay_innerAttr_minlength (l : List String) (s : Host)
    (hl : ∀ a ∈ l, a ∈ observedAttributes) (hb : s.inputNode.isSome = true) :
    innerAttr (l.foldl replayAttribute s) "minlength" = innerAttr s "minlength" := by
  induction l generalizing s with
  | nil => rfl
  | cons a l ih =>
    simp only [List.foldl_cons]
    rw [ih _ (fun b hb => hl b (List.mem_cons_of_mem _ hb)) (replayAttribute_bound s a hb),
      replayAttribute_innerAttr_minlength s a (hl a (List.mem_cons_self _ _)) hb]

/-! ## What the replay mirrors -/

theorem observed_ne_dataPatternmismatch (a : String) (ha : a ∈ observedAttributes) :
    "data-patternmismatch" ≠ a := by
  intro h
  subst h
  exact absurd ha (by decide)

theorem replayAttribute_plain_target (s : Host) (n : InputNode) (hn : s.inputNode = some n)
    (a A V : String) (ha : a ∈ observedAttributes) (hA : A ∈ observedAttributes)
    (hA1 : A ≠ "required") (hA2 : A ≠ "minlength") (hV : attrGet s.attrs A = some V) :
    attrGet (replayAttribute s a).attrs A = some V ∧
    (innerAttr s A = some V ∨ a = A → innerAttr (replayAttribute s a) A = some V) := by
  have hl := asciiLower_observed a ha
  by_cases h1 : a = "required"
  · subst h1
    rw [replayAttribute_of_required s _ (by decide)]
    split
    · refine ⟨hV, fun h => ?_⟩
      rw [innerAttr_map_setAttribute s n hn]
      rcases h with h | h
      · simp [Ne.symm hA1, h]
      · exact absurd h.symm hA1
    · exact ⟨hV, fun h => h.elim id (fun h => absurd h.symm hA1)⟩
  · by_cases h2 : a = "minlength"
    · subst h2
      have hor : innerAttr s A = some V ∨ "minlength" = A → innerAttr s A = some V :=
        fun h => h.elim id (fun h => absurd h.symm hA2)
      cases hm : attrGet s.attrs "minlength" with
      | none =>
        rw [replayAttribute_of_minlength s _ (by decide)]
        simpa [hm] using ⟨hV, hor⟩
      | some v =>
        cases hp : hasAttribute s.attrs "pattern" with
        | true =>
          rw [replayAttribute_of_minlength s _ (by decide)]
          simpa [hm, hp, innerAttr, Host.logEffect] using ⟨hV, hor⟩
        | false =>
          have hAp : "pattern" ≠ A := by
            intro h
            subst h
            simp [hasAttribute, hV] at hp
          have hAd := observed_ne_dataPatternmismatch A hA
          rw [replayAttribute_rewrite s n hn v hm hp]
          constructor
          · cases attrGet s.attrs "data-tooshort" <;> simp [attrGet_attrSet, hAp, hAd, hV]
          · intro h
            have := hor h
            simpa [innerAttr, hn, InputNode.setAttribute, attrGet_attrSet, hAp] using this
    · rw [replayAttribute_of_plain s a (by rw [hl]; exact h1) (by rw [hl]; exact h2)]
      simp only [hl]
      cases hg : attrGet s.attrs a with
      | none =>
        refine ⟨hV, fun h => h.elim id (fun h => ?_)⟩
        subst h
        rw [hV] at hg
        exact absurd hg (by simp)
      | some w =>
        refine ⟨hV, fun h => ?_⟩
        simp only
        rw [innerAttr_map_setAttribute s n hn, hl]
        by_cases haA : a = A
        · subst haA
          rw [hV] at hg
          simp [Option.some.inj hg]
        · rcases h with h | h
          · simp [haA, h]
          · exact absurd h haA

theorem foldl_replay_plain_target (A V : String) (hA : A ∈ observedAttributes)
    (hA1 : A ≠ "required") (hA2 : A ≠ "minlength") (l : List String) (s : Host)
    (hl : ∀ a ∈ l, a ∈ observedAttributes) (hb : s.inputNode.isSome = true)
    (hV : attrGet s.attrs A = some V) (h : innerAttr s A = some V ∨ A ∈ l) :
    attrGet (l.foldl replayAttribute s).attrs A = some V ∧
    innerAttr (l.foldl replayAttribute s) A = some V := by
  induction l generalizing s with
  | nil =>
    rcases h with h | h
    · exact ⟨hV, h⟩
    · exact absurd h (List.not_mem_nil _)
  | cons a l ih =>
    obtain ⟨n, hn⟩ := Option.isSome_iff_exists.mp hb
    have hs := replayAttribute_plain_target s n hn a A V (hl a (List.mem_cons_self _ _)) hA hA1 hA2 hV
    simp only [List.foldl_cons]
    apply ih _ (fun b hb => hl b (List.mem_cons_of_mem _ hb)) (replayAttribute_bound s a hb) hs.1
    rcases h with h | h
    · exact Or.inl (hs.2 (Or.inl h))
    · rcases List.mem_cons.mp h with h | h
      · exact Or.inl (hs.2 (Or.inr h.symm))
      · exact Or.inr h

theorem replayAttribute_required_target (s : Host) (n : InputNode) (hn : s.inputNode = some n)
    (a : String) (ha : a ∈ observedAttributes) (hr : hasAttribute s.attrs "required" = true) :
    hasAttribute (replayAttribute s a).attrs "required" = true ∧
    (innerAttr s "required" = some "true" ∨ a = "required" →
      innerAttr (replayAttribute s a) "required" = some "true") := by
  have hl := asciiLower_observed a ha
  by_cases h1 : a = "required"
  · subst h1
    rw [replayAttribute_of_required s _ (by decide), if_pos hr]
    refine ⟨hr, fun _ => ?_⟩
    rw [innerAttr_map_setAttribute s n hn]
    simp
  · have hor : innerAttr s "required" = some "true" ∨ a = "required" →
        innerAttr s "required" = some "true" := fun h => h.elim id (fun h => absurd h h1)
    by_cases h2 : a = "minlength"
    · subst h2
      cases hm : attrGet s.attrs "minlength" with
      | none =>
        have e : replayAttribute s "minlength" = s := by
          rw [replayAttribute_of_minlength s _ (by decide)]
          simp [hm]
        rw [e]
        exact ⟨hr, hor⟩
      | some v =>
        cases hp : hasAttribute s.attrs "pattern" with
        | true =>
          have e : replayAttribute s "minlength" = s.logEffect .warn := by
            rw [replayAttribute_of_minlength s _ (by decide)]
            simp [hm, hp]
          rw [e]
          exact ⟨hr, hor⟩
        | false =>
          rw [replayAttribute_rewrite s n hn v hm hp]
          constructor
          · cases attrGet s.attrs "data-tooshort" <;>
              simpa [hasAttribute, attrGet_attrSet] using hr
          · intro h
            have := hor h
            simpa [innerAttr, hn, InputNode.setAttribute, attrGet_attrSet] using this
    · rw [replayAttribute_of_plain s a (by rw [hl]; exact h1) (by rw [hl]; exact h2)]
      simp only [hl]
      cases hg : attrGet s.attrs a with
      | none => exact ⟨hr, hor⟩
      | some w =>
        refine ⟨hr, fun h => ?_⟩
        simp only
        rw [innerAttr_map_setAttribute s n hn, hl]
        simp [h1, hor h]

theorem foldl_replay_required_target (l : List String) (s : Host)
    (hl : ∀ a ∈ l, a ∈ observedAttributes) (hb : s.inputNode.isSome = true)
    (hr : hasAttribute s.attrs "required" = true)
    (h : innerAttr s "required" = some "true" ∨ "required" ∈ l) :
    innerAttr (l.foldl replayAttribute s) "required" = some "true" := by
  induction l generalizing s with
  | nil =>
    rcases h with h | h
    · exact h
    · exact absurd h (List.not_mem_nil _)
  | cons a l ih =>
    obtain ⟨n, hn⟩ := Option.isSome_iff_exists.mp hb
    have hs := replayAttribute_required_target s n hn a (hl a (List.mem_cons_self _ _)) hr
    simp only [List.foldl_cons]
    apply ih _ (fun b hb => hl b (List.mem_cons_of_mem _ hb)) (replayAttribute_bound s a hb) hs.1
    rcases h with h | h
    · exact Or.inl (hs.2 (Or.inl h))
    · rcases List.mem_cons.mp h with h | h
      · exact Or.inl (hs.2 (Or.inr h.symm))
      · exact Or.inr h

/-! ## Binding the inner control -/

theorem setInputNode_frame (p : Platform) (s : Host) (node : InputNode) :
    (∀ m, innerAttr (state (setInputNode p s node)) m =
        innerAttr (observedAttributes.foldl replayAttribute { s with inputNode := some node }) m) ∧
    (∀ m, "invalid" ≠ m → "tabindex" ≠ m →
      attrGet (state (setInputNode p s node)).attrs m =
        attrGet (observedAttributes.foldl replayAttribute { s with inputNode := some node }).attrs m) := by
  unfold setInputNode
  simp only
  generalize observedAttributes.foldl replayAttribute { s with inputNode := some node } = s2
  have hnot : asciiLower "tabindex" ∉ observedAttributes := by decide
  have h3 : (if hasAttribute s2.attrs "tabindex" = true then s2 else s2.setAttribute "tabindex" "0").inputNode
      = s2.inputNode := by
    split
    · rfl
    · rw [Host.setAttribute_of_not_observed _ _ _ hnot]
  have h4 : ∀ m, "tabindex" ≠ m →
      attrGet (if hasAttribute s2.attrs "tabindex" = true then s2
        else s2.setAttribute "tabindex" "0").attrs m = attrGet s2.attrs m := by
    intro m hm
    split
    · rfl
    · rw [Host.setAttribute_of_not_observed _ _ _ hnot]
      simp [attrGet_attrSet, hm]
  have hf := (validateInput_state p
    (if hasAttribute s2.attrs "tabindex" = true then s2 else s2.setAttribute "tabindex" "0")).1
  constructor
  · intro m
    simp only [innerAttr]
    rw [hf.2.1, h3]
  · intro m hi ht
    rw [hf.2.2.2 m hi, h4 m ht]

theorem setInputNode_of_pattern (p : Platform) (s : Host) (node : InputNode) (P : String)
    (hP : attrGet s.attrs "pattern" = some P) :
    innerAttr (state (setInputNode p s node)) "pattern" = some P ∧
    (∀ m, "invalid" ≠ m → "tabindex" ≠ m →
      attrGet (state (setInputNode p s node)).attrs m = attrGet s.attrs m) := by
  obtain ⟨hi, ha⟩ := setInputNode_frame p s node
  have hpat : hasAttribute ({ s with inputNode := some node } : Host).attrs "pattern" = true := by
    simp [hasAttribute, hP]
  have hattrs := foldl_replay_attrs_of_pattern observedAttributes { s with inputNode := some node } hpat
  have hin := (foldl_replay_plain_target "pattern" P (by decide) (by decide) (by decide)
    observedAttributes { s with inputNode := some node } (fun _ h => h) rfl hP
    (Or.inr (by decide))).2
  refine ⟨?_, ?_⟩
  · rw [hi]
    exact hin
  · intro m h1 h2
    rw [ha m h1 h2, hattrs]

/-- C8: when the host carries both `minlength` and `pattern` at binding time, binding
rewrites nothing: afterwards the host's `pattern` is its explicit value, the inner
control's `pattern` is that explicit value, the host's `data-patternmismatch` is what it
was, and so is every other attribute of the host except `tabindex` and `invalid`. -/
theorem bind_conflict_no_rewrite (p : Platform) (s : Host) (node : InputNode) (N P : String)
    (_hN : attrGet s.attrs "minlength" = some N) (hP : attrGet s.attrs "pattern" = some P) :
    attrGet (state (setInputNode p s node)).attrs "pattern" = some P ∧
    innerAttr (state (setInputNode p s node)) "pattern" = some P ∧
    attrGet (state (setInputNode p s node)).attrs "data-patternmismatch" =
      attrGet s.attrs "data-patternmismatch" ∧
    (∀ m, "invalid" ≠ m → "tabindex" ≠ m →
      attrGet (state (setInputNode p s node)).attrs m = attrGet s.attrs m) := by
  obtain ⟨hin, ha⟩ := setInputNode_of_pattern p s node P hP
  refine ⟨?_, hin, ha _ (by decide) (by decide), ha⟩
  rw [ha _ (by decide) (by decide)]
  exact hP

/-- Witness of C8: `minlength=5` with `pattern=[a-z]+` and a `data-tooshort` message. -/
theorem bind_conflict_no_rewrite_witness :
    attrGet (boundHost missingPlatform
        [("minlength", "5"), ("pattern", "[a-z]+"), ("data-tooshort", "Too short")]).attrs
      "pattern" = some "[a-z]+" ∧
    innerAttr (boundHost missingPlatform
        [("minlength", "5"), ("pattern", "[a-z]+"), ("data-tooshort", "Too short")])
      "pattern" = some "[a-z]+" ∧
    attrGet (boundHost missingPlatform
        [("minlength", "5"), ("pattern", "[a-z]+"), ("data-tooshort", "Too short")]).attrs
      "data-patternmismatch" =
      attrGet (construct
        [("minlength", "5"), ("pattern", "[a-z]+"), ("data-tooshort", "Too short")]).attrs
      "data-patternmismatch" ∧
    (∀ m, "invalid" ≠ m → "tabindex" ≠ m →
      attrGet (boundHost missingPlatform
        [("minlength", "5"), ("pattern", "[a-z]+"), ("data-tooshort", "Too short")]).attrs m =
      attrGet (construct
        [("minlength", "5"), ("pattern", "[a-z]+"), ("data-tooshort", "Too short")]).attrs m) :=
  bind_conflict_no_rewrite missingPlatform
    (construct [("minlength", "5"), ("pattern", "[a-z]+"), ("data-tooshort", "Too short")])
    freshNode "5" "[a-z]+" (by decide) (by decide)

/-- C9, as the code has it: when the host carries both `minlength=N` and `pattern=P` at
binding time, after binding the inner control has `pattern=P`, and `minlength` is not
mirrored: the inner control's `minlength` attribute is what it was before binding. -/
theorem bind_conflict_minlength_not_mirrored (p : Platform) (s : Host) (node : InputNode)
    (N P : String) (_hN : attrGet s.attrs "minlength" = some N)
    (hP : attrGet s.attrs "pattern" = some P) :
    innerAttr (state (setInputNode p s node)) "pattern" = some P ∧
    innerAttr (state (setInputNode p s node)) "minlength" = attrGet node.attrs "minlength" := by
  obtain ⟨hi, _⟩ := setInputNode_frame p s node
  refine ⟨(setInputNode_of_pattern p s node P hP).1, ?_⟩
  rw [hi, foldl_replay_innerAttr_minlength observedAttributes { s with inputNode := some node }
    (fun _ h => h) rfl]
  rfl

/-- Witness of C9 as amended: `minlength=5` with `pattern=x` on a fresh inner control. -/
theorem bind_conflict_minlength_not_mirrored_witness :
    innerAttr (boundHost missingPlatform [("minlength", "5"), ("pattern", "x")]) "pattern"
      = some "x" ∧
    innerAttr (boundHost missingPlatform [("minlength", "5"), ("pattern", "x")]) "minlength"
      = attrGet freshNode.attrs "minlength" :=
  bind_conflict_minlength_not_mirrored missingPlatform
    (construct [("minlength", "5"), ("pattern", "x")]) freshNode "5" "x" (by decide) (by decide)

/-- Counterexample to C9 as stated: the host carries `minlength=5` and `pattern=x`;
after binding a fresh inner control, the inner control has no `minlength` attribute. -/
theorem bind_conflict_minlength_absent :
    attrGet (construct [("minlength", "5"), ("pattern", "x")]).attrs "minlength" = some "5" ∧
    attrGet (construct [("minlength", "5"), ("pattern", "x")]).attrs "pattern" = some "x" ∧
    innerAttr (boundHost missingPlatform [("minlength", "5"), ("pattern", "x")]) "minlength"
      = none := by
  decide

/-! ## The rewrite of `minlength` at binding time -/

theorem foldl_replay_rewrite (s : Host) (node : InputNode) (N : String)
    (hN : attrGet s.attrs "minlength" = some N) (hP : attrGet s.attrs "pattern" = none) :
    attrGet (observedAttributes.foldl replayAttribute { s with inputNode := some node }).attrs
        "pattern" = some (".\x7b" ++ N ++ ",\x7d") ∧
    innerAttr (observedAttributes.foldl replayAttribute { s with inputNode := some node })
        "pattern" = some (".\x7b" ++ N ++ ",\x7d") := by
  have e : observedAttributes.foldl replayAttribute { s with inputNode := some node } =
      ["maxlength", "pattern", "disabled"].foldl replayAttribute
        (replayAttribute
          (["type", "value", "placeholder", "required", "min", "max"].foldl replayAttribute
            { s with inputNode := some node }) "minlength") := by
    simp only [observedAttributes, List.foldl_cons, List.foldl_nil]
  rw [e]
  generalize hpre : ["type", "value", "placeholder", "required", "min", "max"].foldl replayAttribute
    { s with inputNode := some node } = sPre
  have hattrs : sPre.attrs = s.attrs := by
    rw [← hpre]
    exact foldl_replay_attrs_of_ne_minlength _ _ (by decide)
  have hb : sPre.inputNode.isSome = true := by
    rw [← hpre]
    exact foldl_replay_bound _ _ rfl
  obtain ⟨n, hn⟩ := Option.isSome_iff_exists.mp hb
  have hN1 : attrGet sPre.attrs "minlength" = some N := by rw [hattrs]; exact hN
  have hP1 : hasAttribute sPre.attrs "pattern" = false := by
    rw [hattrs]
    simp [hasAttribute, hP]
  rw [replayAttribute_rewrite sPre n hn N hN1 hP1]
  refine foldl_replay_plain_target "pattern" (".\x7b" ++ N ++ ",\x7d") (by decide) (by decide)
    (by decide) ["maxlength", "pattern", "disabled"] _ (by decide) ?_ ?_ ?_
  · rfl
  · cases attrGet sPre.attrs "data-tooshort" <;> simp [attrGet_attrSet]
  · left
    simp [innerAttr, InputNode.setAttribute, attrGet_attrSet]

/-- C3, as the code has it: for every recognized attribute `A` other than `required`
and `minlength` that the host carries with value `V` before binding, the inner control
has `A = V` after binding; for `required`, whose presence alone is mirrored, the inner
control then carries `required="true"` whatever the host's value is; and `minlength=N`
on a host without `pattern` yields `pattern=".{N,}"` on both the inner control and the
host. -/
theorem bind_mirrors_attributes (p : Platform) (s : Host) (node : InputNode) :
    (∀ A V, A ∈ observedAttributes → A ≠ "required" → A ≠ "minlength" →
      attrGet s.attrs A = some V → innerAttr (state (setInputNode p s node)) A = some V) ∧
    (∀ V, attrGet s.attrs "required" = some V →
      innerAttr (state (setInputNode p s node)) "required" = some "true") ∧
    (∀ N, attrGet s.attrs "minlength" = some N → attrGet s.attrs "pattern" = none →
      innerAttr (state (setInputNode p s node)) "pattern" = some (".\x7b" ++ N ++ ",\x7d") ∧
      attrGet (state (setInputNode p s node)).attrs "pattern" = some (".\x7b" ++ N ++ ",\x7d")) := by
  obtain ⟨hi, ha⟩ := setInputNode_frame p s node
  refine ⟨?_, ?_, ?_⟩
  · intro A V hA hA1 hA2 hV
    rw [hi]
    exact (foldl_replay_plain_target A V hA hA1 hA2 observedAttributes
      { s with inputNode := some node } (fun _ h => h) rfl hV (Or.inr hA)).2
  · intro V hV
    rw [hi]
    exact foldl_replay_required_target observedAttributes { s with inputNode := some node }
      (fun _ h => h) rfl (by simp [hasAttribute, hV]) (Or.inr (by decide))
  · intro N hN hP
    have := foldl_replay_rewrite s node N hN hP
    rw [hi, ha _ (by decide) (by decide)]
    exact ⟨this.2, this.1⟩

/-- Witness of C3 as amended: a required number field with `min=5`, and `minlength=3`
without `pattern`. -/
theorem bind_mirrors_attributes_witness :
    innerAttr (boundHost missingPlatform
      [("type", "number"), ("min", "5"), ("required", ""), ("minlength", "3")]) "min" = some "5" ∧
    innerAttr (boundHost missingPlatform
      [("type", "number"), ("min", "5"), ("required", ""), ("minlength", "3")]) "required"
      = some "true" ∧
    innerAttr (boundHost missingPlatform
      [("type", "number"), ("min", "5"), ("required", ""), ("minlength", "3")]) "pattern"
      = some ".\x7b3,\x7d" ∧
    attrGet (boundHost missingPlatform
      [("type", "number"), ("min", "5"), ("required", ""), ("minlength", "3")]).attrs "pattern"
      = some ".\x7b3,\x7d" :=
  ⟨(bind_mirrors_attributes missingPlatform
      (construct [("type", "number"), ("min", "5"), ("required", ""), ("minlength", "3")])
      freshNode).1 "min" "5" (by decide) (by decide) (by decide) (by decide),
    (bind_mirrors_attributes missingPlatform
      (construct [("type", "number"), ("min", "5"), ("required", ""), ("minlength", "3")])
      freshNode).2.1 "" (by decide),
    (bind_mirrors_attributes missingPlatform
      (construct [("type", "number"), ("min", "5"), ("required", ""), ("minlength", "3")])
      freshNode).2.2 "3" (by decide) (by decide)⟩

/-- Counterexample to C3 as stated: the host carries `required` with the empty value (the
markup `<custom-input required>`); after binding, the inner control's `required`
attribute has the value `true`, not the host's value. -/
theorem bind_required_value_not_mirrored :
    attrGet (construct [("required", "")]).attrs "required" = some "" ∧
    innerAttr (boundHost missingPlatform [("required", "")]) "required" = some "true" ∧
    innerAttr (boundHost missingPlatform [("required", "")]) "required" ≠ some "" := by
  decide

/-! ## Form reset -/

theorem formReset_default (attrs : Attrs) :
    (if (JSValue.ofOption (getAttribute attrs "value")).truthy = true then
      (JSValue.ofOption (getAttribute attrs "value")).toString else "") = declaredDefault attrs := by
  simp only [getAttribute, asciiLower_value, declaredDefault]
  cases attrGet attrs "value" with
  | none => rfl
  | some x =>
    by_cases hx : x = "" <;> simp [JSValue.ofOption, JSValue.truthy, JSValue.toString, hx]

/-! ## The order of the signals after a change of the inner control -/

/-- C10 at its failing input: on a bound required field with `validate-on-change` and
`custom-error-display`, which has dispatched nothing so far, a `change` event of the
inner control makes the host dispatch `invalid` first, then the re-dispatched `change`,
then `invalid` again. -/
theorem change_dispatches_invalid_first :
    dispatched (boundHost missingPlatform
      [("required", ""), ("validate-on-change", ""), ("custom-error-display", "")]).log = [] ∧
    dispatched (inputNodeDispatchEvent missingPlatform
      (boundHost missingPlatform
        [("required", ""), ("validate-on-change", ""), ("custom-error-display", "")])
      { type := "change", cancelable := false, defaultPrevented := false }).log
      = ["invalid", "change", "invalid"] := by
  decide

/-! ## Synchronizing one attribute -/

/-- C19: for every recognized attribute name other than `minlength`, on a bound host,
`attributeChangedCallback(name, oldValue, newValue)` removes the attribute `name` from
the inner control when `newValue` is absent (`null`) and otherwise sets it to exactly
`newValue`; every other attribute of the inner control is left as it was. -/
theorem attributeChangedCallback_mirrors (s : Host) (node : InputNode) (name : String)
    (oldValue : Option String) (hn : s.inputNode = some node)
    (hname : name ∈ observedAttributes) (_hmin : name ≠ "minlength") :
    (innerAttr (attributeChangedCallback s name oldValue none) name = none ∧
      ∀ m, m ≠ name → innerAttr (attributeChangedCallback s name oldValue none) m = innerAttr s m) ∧
    (∀ v, innerAttr (attributeChangedCallback s name oldValue (some v)) name = some v ∧
      ∀ m, m ≠ name →
        innerAttr (attributeChangedCallback s name oldValue (some v)) m = innerAttr s m) := by
  have hl := asciiLower_observed name hname
  refine ⟨⟨?_, ?_⟩, fun v => ⟨?_, ?_⟩⟩
  · simp [attributeChangedCallback, hn, innerAttr, InputNode.removeAttribute, hl,
      attrGet_attrRemove]
  · intro m hm
    simp [attributeChangedCallback, hn, innerAttr, InputNode.removeAttribute, hl,
      attrGet_attrRemove, Ne.symm hm]
  · simp [attributeChangedCallback, hn, innerAttr, InputNode.setAttribute, hl, attrGet_attrSet]
  · intro m hm
    simp [attributeChangedCallback, hn, innerAttr, InputNode.setAttribute, hl, attrGet_attrSet,
      Ne.symm hm]

/-- Witness of C19: `max` is set to `10` and then removed on a bound number field. -/
theorem attributeChangedCallback_mirrors_witness :
    (innerAttr (attributeChangedCallback (boundHost missingPlatform [("min", "5")]) "max"
        (some "10") none) "max" = none ∧
      ∀ m, m ≠ "max" →
        innerAttr (attributeChangedCallback (boundHost missingPlatform [("min", "5")]) "max"
          (some "10") none) m = innerAttr (boundHost missingPlatform [("min", "5")]) m) ∧
    (∀ v, innerAttr (attributeChangedCallback (boundHost missingPlatform [("min", "5")]) "max"
        (some "10") (some v)) "max" = some v ∧
      ∀ m, m ≠ "max" →
        innerAttr (attributeChangedCallback (boundHost missingPlatform [("min", "5")]) "max"
          (some "10") (some v)) m = innerAttr (boundHost missingPlatform [("min", "5")]) m) :=
  attributeChangedCallback_mirrors (boundHost missingPlatform [("min", "5")])
    { attrs := [("min", "5")], value := "", focused := false } "max" (some "10")
    (by decide) (by decide) (by decide)

/-! ## Tracking the pristine flag -/

theorem pristineGate_validateInput_bound (p : Platform) (s : Host)
    (h : s.inputNode.isSome = true) : PristineGate (state (validateInput p s)) := by
  obtain ⟨node, hn⟩ := Option.isSome_iff_exists.mp h
  have h0 := sameExceptInvalid_setInvalid s false
  have g0 := pristineGate_setInvalid_false s
  have hn0 : (s.setInvalid false).inputNode = some node := by rw [h0.2.1, hn]
  unfold validateInput
  simp only [hn]
  cases hv : (p.validity node).valid with
  | false =>
    simp only [if_true]
    rw [forIn_keys p node _ _ hv]
    exact (forIn_true_flags_state p node (p.validity node) (trueReasons (p.validity node))
      (s.setInvalid false) hn0 (fun g hg => mem_trueReasons hg)).2 g0
  | true =>
    simp only [Bool.true_eq_false, if_false, Host.setValidity_nil, state]
    exact ⟨fun h => g0.1 h, fun h => g0.2 h⟩

theorem dispatchEvent_other (s : Host) (e : Event) (h1 : e.type ≠ "invalid")
    (h2 : e.type ≠ "focus") :
    (s.dispatchEvent e).1 = s.logEffect (.dispatchEvent e.type) := by
  simp [Host.dispatchEvent, Host.fire, h1, h2]

theorem changeListener_state (p : Platform) (s : Host) (node : InputNode) (e : Event)
    (hn : s.inputNode = some node) (he : e.type = "change") :
    (state (changeListener p s e)).pristine = (s.pristine && !s.validateOnChange) ∧
    PristineGate (state (changeListener p s e)) := by
  unfold changeListener
  generalize hs1 : (if s.validateOnChange = true then { s with pristine := false } else s) = s1
  have hn1 : s1.inputNode = some node := by
    rw [← hs1]
    split <;> exact hn
  have hp1 : s1.pristine = (s.pristine && !s.validateOnChange) := by
    rw [← hs1]
    cases hv : s.validateOnChange <;> simp
  simp only [hn1]
  unfold setValue
  simp only [hn1]
  generalize hs2 : ({ s1 with
      inputNode := some (node.setValue p (node.getValue p))
      internals := { s1.internals with formValue := some (node.getValue p) } } : Host) = s2
  have hb2 : s2.inputNode.isSome = true := by rw [← hs2]; rfl
  have hp2 : s2.pristine = s1.pristine := by rw [← hs2]
  have hf := (validateInput_state p s2).1
  have hg := pristineGate_validateInput_bound p s2 hb2
  cases hr : validateInput p s2 with
  | error s3 =>
    rw [hr] at hf hg
    simp only [state] at hf hg ⊢
    exact ⟨by rw [hf.1, hp2, hp1], hg⟩
  | ok s3 =>
    rw [hr] at hf
    simp only [state] at hf
    have hc := dispatchEvent_other s3
      { type := e.type, cancelable := e.cancelable, defaultPrevented := false }
      (by rw [he]; decide) (by rw [he]; decide)
    simp only [hc]
    have hb3 : (s3.logEffect (.dispatchEvent e.type)).inputNode.isSome = true := by
      simp only [Host.logEffect]
      rw [hf.2.1]
      exact hb2
    refine ⟨?_, pristineGate_validateInput_bound p _ hb3⟩
    rw [(validateInput_state p _).1.1]
    simp only [Host.logEffect]
    rw [hf.1, hp2, hp1]

/-- C11: `pristine` is true after construction; on a bound host, a `change` event of the
inner control sets `pristine` to false when `validate-on-change` is enabled; when it is
not enabled the event leaves `pristine` as it was, and a pristine host then still reads
`invalid = false`, whatever the inner control reports for the new value. -/
theorem pristine_tracking (p : Platform) (attrs : Attrs) (s : Host) (node : InputNode)
    (e : Event) (hn : s.inputNode = some node) (he : e.type = "change") :
    (construct attrs).pristine = true ∧
    (s.validateOnChange = true → (inputNodeDispatchEvent p s e).pristine = false) ∧
    (s.validateOnChange = false →
      (inputNodeDispatchEvent p s e).pristine = s.pristine ∧
      (s.pristine = true → (inputNodeDispatchEvent p s e).invalid = false)) := by
  have hc := changeListener_state p s node e hn he
  have hd : inputNodeDispatchEvent p s e = state (changeListener p s e) := by
    simp [inputNodeDispatchEvent, hn, he]
  rw [hd]
  refine ⟨rfl, fun hv => ?_, fun hv => ⟨?_, fun hp => ?_⟩⟩
  · rw [hc.1, hv]
    simp
  · rw [hc.1, hv]
    simp
  · have hpr : (state (changeListener p s e)).pristine = true := by
      rw [hc.1, hv, hp]
      rfl
    cases hi : (state (changeListener p s e)).invalid with
    | false => rfl
    | true =>
      have := hc.2.2 hi
      rw [hpr] at this
      exact absurd this (by simp)

/-- Witness of C11: a pristine required field without `validate-on-change`, empty, whose
inner control emits `change`. -/
theorem pristine_tracking_witness :
    (construct [("required", "")]).pristine = true ∧
    ((boundHost missingPlatform [("required", "")]).validateOnChange = true →
      (inputNodeDispatchEvent missingPlatform (boundHost missingPlatform [("required", "")])
        { type := "change", cancelable := false, defaultPrevented := false }).pristine = false) ∧
    ((boundHost missingPlatform [("required", "")]).validateOnChange = false →
      (inputNodeDispatchEvent missingPlatform (boundHost missingPlatform [("required", "")])
        { type := "change", cancelable := false, defaultPrevented := false }).pristine =
        (boundHost missingPlatform [("required", "")]).pristine ∧
      ((boundHost missingPlatform [("required", "")]).pristine = true →
        (inputNodeDispatchEvent missingPlatform (boundHost missingPlatform [("required", "")])
          { type := "change", cancelable := false, defaultPrevented := false }).invalid = false)) :=
  pristine_tracking missingPlatform [("required", "")]
    (boundHost missingPlatform [("required", "")])
    { attrs := [("required", "true")], value := "", focused := false }
    { type := "change", cancelable := false, defaultPrevented := false } (by decide) (by decide)

/-! ## The `invalid` event on the host -/

/-- C12: every `invalid` event delivered to a bound host, dispatched through
`dispatchEvent` or fired by the platform, leaves `invalid` true and `pristine` false,
whatever the configuration of `validate-on-change` is; the listener calls
`preventDefault` exactly when `custom-error-display` is enabled, so the platform's
cancelable event is canceled if and only if `custom-error-display` is enabled. -/
theorem invalid_event_marks_host (s : Host) (node : InputNode) (e : Event)
    (hn : s.inputNode = some node) (he : e.type = "invalid") :
    ((s.dispatchEvent e).1.invalid = true ∧ (s.dispatchEvent e).1.pristine = false ∧
      (s.dispatchEvent e).2 = if s.customErrorDisplay = true then e.preventDefault else e) ∧
    (s.fireInvalid.1.invalid = true ∧ s.fireInvalid.1.pristine = false ∧
      (s.fireInvalid.2.defaultPrevented = true ↔ s.customErrorDisplay = true)) := by
  have hcl (x : Effect) : (s.logEffect x).customErrorDisplay = s.customErrorDisplay := rfl
  obtain ⟨ty, c, d⟩ := e
  simp only at he
  subst he
  refine ⟨⟨?_, ?_, ?_⟩, ?_, ?_, ?_⟩
  · simp [Host.dispatchEvent, Host.fire, Host.logEffect, hn, invalidListener_fst]
  · simp [Host.dispatchEvent, Host.fire, Host.logEffect, hn, invalidListener_fst]
  · simp only [Host.dispatchEvent, Host.fire]
    have : (s.logEffect (.dispatchEvent "invalid")).inputNode.isSome = true := by
      simp [Host.logEffect, hn]
    simp only [this, if_true, invalidListener_snd, hcl]
  · simp [Host.fireInvalid, Host.fire, Host.logEffect, hn, invalidListener_fst]
  · simp [Host.fireInvalid, Host.fire, Host.logEffect, hn, invalidListener_fst]
  · simp only [Host.fireInvalid, Host.fire]
    have : (s.logEffect .invalidFired).inputNode.isSome = true := by
      simp [Host.logEffect, hn]
    simp only [this, if_true, invalidListener_snd, hcl]
    cases hc : s.customErrorDisplay <;> simp [Event.preventDefault]

/-- Witness of C12: an `invalid` event on a pristine bound host without
`validate-on-change` and with `custom-error-display`. -/
theorem invalid_event_marks_host_witness :
    (((boundHost missingPlatform [("custom-error-display", "")]).dispatchEvent
        { type := "invalid", cancelable := true, defaultPrevented := false }).1.invalid = true ∧
      ((boundHost missingPlatform [("custom-error-display", "")]).dispatchEvent
        { type := "invalid", cancelable := true, defaultPrevented := false }).1.pristine = false ∧
      ((boundHost missingPlatform [("custom-error-display", "")]).dispatchEvent
        { type := "invalid", cancelable := true, defaultPrevented := false }).2 =
        if (boundHost missingPlatform [("custom-error-display", "")]).customErrorDisplay = true
        then Event.preventDefault { type := "invalid", cancelable := true, defaultPrevented := false }
        else { type := "invalid", cancelable := true, defaultPrevented := false }) ∧
    ((boundHost missingPlatform [("custom-error-display", "")]).fireInvalid.1.invalid = true ∧
      (boundHost missingPlatform [("custom-error-display", "")]).fireInvalid.1.pristine = false ∧
      ((boundHost missingPlatform [("custom-error-display", "")]).fireInvalid.2.defaultPrevented
          = true ↔
        (boundHost missingPlatform [("custom-error-display", "")]).customErrorDisplay = true)) :=
  invalid_event_marks_host (boundHost missingPlatform [("custom-error-display", "")]) freshNode
    { type := "invalid", cancelable := true, defaultPrevented := false } (by decide) (by decide)

/-! ## Attributes set after binding -/

/-- C13 at its failing input: `minlength=5` on a host without `pattern`. Set before
binding, it is not forwarded and yields `pattern=".{5,}"` on the inner control and on the
host; set after binding, `attributeChangedCallback` forwards `minlength=5` to the inner
control and no `pattern` appears on either element. -/
theorem minlength_after_binding_is_forwarded :
    (innerAttr (boundHost missingPlatform [("minlength", "5")]) "minlength" = none ∧
      innerAttr (boundHost missingPlatform [("minlength", "5")]) "pattern" = some ".\x7b5,\x7d" ∧
      attrGet (boundHost missingPlatform [("minlength", "5")]).attrs "pattern"
        = some ".\x7b5,\x7d") ∧
    (attrGet (boundHost missingPlatform []).attrs "pattern" = none ∧
      innerAttr ((boundHost missingPlatform []).setAttribute "minlength" "5") "minlength"
        = some "5" ∧
      innerAttr ((boundHost missingPlatform []).setAttribute "minlength" "5") "pattern" = none ∧
      attrGet ((boundHost missingPlatform []).setAttribute "minlength" "5").attrs "pattern"
        = none) := by
  decide

/-- C18, as the code has it: `attributeChangedCallback` only mirrors the attribute onto
the inner control; it runs no validation and makes no `setValidity` call, so the
aggregated validity with its message, the `invalid` flag, the pristine flag, the
attributes of the host and the log of effects are exactly what they were before. -/
theorem attributeChangedCallback_no_evaluate (s : Host) (name : String)
    (oldValue newValue : Option String) :
    (attributeChangedCallback s name oldValue newValue).internals = s.internals ∧
    (attributeChangedCallback s name oldValue newValue).invalid = s.invalid ∧
    (attributeChangedCallback s name oldValue newValue).pristine = s.pristine ∧
    (attributeChangedCallback s name oldValue newValue).attrs = s.attrs ∧
    (attributeChangedCallback s name oldValue newValue).log = s.log := by
  have h := attributeChangedCallback_fields s name oldValue newValue
  exact ⟨h.2.2.2.1, h.2.1, h.2.2.1, h.1, h.2.2.2.2.1⟩

/-- Counterexample to C18 as stated: on a bound, valid host `required` is added; the
inner control, which is empty, then suffers from `valueMissing`, but the aggregated
validity still reports valid and differs from what `validateInput` would produce. -/
theorem attribute_change_leaves_validity_stale :
    (boundHost requiredPlatform []).internals.validity.valid = true ∧
    innerAttr (attributeChangedCallback (boundHost requiredPlatform []) "required" none (some ""))
      "required" = some "" ∧
    (attributeChangedCallback (boundHost requiredPlatform []) "required" none
      (some "")).internals.validity.valid = true ∧
    (state (validateInput requiredPlatform
      (attributeChangedCallback (boundHost requiredPlatform []) "required" none
        (some "")))).internals.validity.valid = false := by
  decide

/-! ## Custom validity -/

theorem Host.setValidity_empty (s : Host) (m : String) :
    s.setValidity [] (some m) =
      .ok { s with
              log := s.log ++ [.setValidity [] (some m)]
              internals := { s.internals with
                               validity := ValidityState.ofFlags []
                               validationMessage := "" } } := by
  simp [Host.setValidity, Host.logEffect, ValidityState.ofFlags_nil_valid]

theorem Host.setValidity_undefined (s : Host) (m : String) :
    s.setValidity [("undefined", true)] (some m) =
      .ok { s with
              log := s.log ++ [.setValidity [("undefined", true)] (some m)]
              internals := { s.internals with
                               validity := ValidityState.ofFlags [("undefined", true)]
                               validationMessage := "" } } := by
  have hv : (ValidityState.ofFlags [("undefined", true)]).valid = true := by decide
  simp [Host.setValidity, Host.logEffect, hv]

/-- C15, as the code has it: for a non-empty message `m`, `setCustomValidity(m)` sets
the host's current active reason (`validationError`), not `customError`: when the active
reason names the validity flag `f`, the aggregated validity afterwards has exactly `f`
set, with `m` as its message; when there is no active reason, the aggregated validity is
cleared. For the empty message, `setCustomValidity` clears the aggregated validity. -/
theorem setCustomValidity_sets_active_reason (s : Host) (m : String) :
    (m ≠ "" → ∀ f : Flag, s.validationError = some f.name →
      ∃ t, setCustomValidity s m = .ok t ∧
        (∀ g, t.internals.validity.flag g = true ↔ g = f) ∧
        t.internals.validationMessage = m) ∧
    (m ≠ "" → s.validationError = none →
      ∃ t, setCustomValidity s m = .ok t ∧
        t.internals.validity.valid = true ∧ t.internals.validationMessage = "") ∧
    (∃ t, setCustomValidity s "" = .ok t ∧
      t.internals.validity.valid = true ∧ t.internals.validationMessage = "") := by
  refine ⟨fun hm f hf => ?_, fun hm hf => ?_, ?_⟩
  · have e : setCustomValidity s m = s.setValidity [(f.name, true)] (some m) := by
      simp [setCustomValidity, hm, hf]
    rw [e, Host.setValidity_single s f m hm]
    refine ⟨_, rfl, ?_, rfl⟩
    intro g
    simp [ValidityState.ofFlags_single_flag]
  · have e : setCustomValidity s m = s.setValidity [("undefined", true)] (some m) := by
      simp [setCustomValidity, hm, hf]
    rw [e, Host.setValidity_undefined s m]
    refine ⟨_, rfl, ?_, rfl⟩
    show (ValidityState.ofFlags [("undefined", true)]).valid = true
    decide
  · have e : setCustomValidity s "" = s.setValidity [] (some "") := by
      simp [setCustomValidity]
    rw [e, Host.setValidity_empty s ""]
    exact ⟨_, rfl, ValidityState.ofFlags_nil_valid, rfl⟩

/-- Witness of C15 as amended: the active reason of a bound required field is
`valueMissing`. -/
theorem setCustomValidity_sets_active_reason_witness :
    ∃ t, setCustomValidity (boundHost missingPlatform [("required", "")]) "Custom" = .ok t ∧
      (∀ g, t.internals.validity.flag g = true ↔ g = Flag.valueMissing) ∧
      t.internals.validationMessage = "Custom" :=
  (setCustomValidity_sets_active_reason (boundHost missingPlatform [("required", "")])
    "Custom").1 (by decide) Flag.valueMissing (by decide)

/-- Counterexample to C15 as stated: on a bound required field, whose active reason is
`valueMissing`, `setCustomValidity("Custom")` leaves `customError` false and sets
`valueMissing`; on a host without active reason it clears the aggregated validity. -/
theorem setCustomValidity_not_customError :
    (boundHost missingPlatform [("required", "")]).validationError = some "valueMissing" ∧
    (state (setCustomValidity (boundHost missingPlatform [("required", "")])
      "Custom")).internals.validity.customError = false ∧
    (state (setCustomValidity (boundHost missingPlatform [("required", "")])
      "Custom")).internals.validity.valueMissing = true ∧
    (construct []).validationError = none ∧
    (state (setCustomValidity (construct []) "Custom")).internals.validity.customError = false ∧
    (state (setCustomValidity (construct []) "Custom")).internals.validity.valid = true := by
  decide

/-- C16, as the code has it: for a non-empty message `m`, `setErrorMessage(m)` completes,
sets the active reason to `customError`, leaves exactly `customError` set in the
aggregated validity with the message `m`, and then calls `reportValidity()` whatever the
configuration is; it never calls `dispatchEvent`. On a host that is a candidate for
constraint validation the platform then fires its cancelable `invalid` event at the
host: on a bound host with `custom-error-display` the listener cancels it and no native
report follows; otherwise the native report follows. On a host that is barred from
constraint validation no event is fired and nothing is reported. -/
theorem setErrorMessage_reports_natively (p : Platform) (s : Host) (m : String)
    (hm : m ≠ "") :
    ∃ t, setErrorMessage p s m = .ok t ∧
      t.validationError = some "customError" ∧
      (∀ g, t.internals.validity.flag g = true ↔ g = Flag.customError) ∧
      t.internals.validationMessage = m ∧
      t.log = s.log ++ [.setValidity [("customError", true)] (some m), .reportValidity] ++
        (if p.willValidate s.attrs = true then
          (if s.inputNode.isSome = true ∧ s.customErrorDisplay = true then [.invalidFired]
           else [.invalidFired, .nativeReport])
         else []) := by
  have hsv := Host.setValidity_single { s with validationError := some "customError" }
    Flag.customError m hm
  have hname : Flag.customError.name = "customError" := rfl
  rw [hname] at hsv
  have hvf : (ValidityState.ofFlags [("customError", true)]).valid = false := by decide
  simp only [setErrorMessage, setCustomValidity, hm, ne_eq, not_false_eq_true, if_true,
    Option.getD_some, hsv]
  refine ⟨_, rfl, ?_, ?_, ?_, ?_⟩
  · by_cases hw : p.willValidate s.attrs = true <;> cases hb : s.inputNode <;>
      cases hc : hasAttribute s.attrs "custom-error-display" <;>
      simp [Host.reportValidity, Host.fireInvalid, Host.fire, Host.logEffect, hw, hb, hvf,
        invalidListener_fst, invalidListener_snd, Host.customErrorDisplay, hc,
        Event.preventDefault]
  · intro g
    have hflag := ValidityState.ofFlags_single_flag Flag.customError g
    rw [hname] at hflag
    by_cases hw : p.willValidate s.attrs = true <;> cases hb : s.inputNode <;>
      cases hc : hasAttribute s.attrs "custom-error-display" <;>
      simp [Host.reportValidity, Host.fireInvalid, Host.fire, Host.logEffect, hw, hb, hvf,
        invalidListener_fst, invalidListener_snd, Host.customErrorDisplay, hc,
        Event.preventDefault, hflag]
  · by_cases hw : p.willValidate s.attrs = true <;> cases hb : s.inputNode <;>
      cases hc : hasAttribute s.attrs "custom-error-display" <;>
      simp [Host.reportValidity, Host.fireInvalid, Host.fire, Host.logEffect, hw, hb, hvf,
        invalidListener_fst, invalidListener_snd, Host.customErrorDisplay, hc,
        Event.preventDefault]
  · by_cases hw : p.willValidate s.attrs = true <;> cases hb : s.inputNode <;>
      cases hc : hasAttribute s.attrs "custom-error-display" <;>
      simp [Host.reportValidity, Host.fireInvalid, Host.fire, Host.logEffect, hw, hb, hvf,
        invalidListener_fst, invalidListener_snd, Host.customErrorDisplay, hc,
        Event.preventDefault]

/-- Witness of C16 as amended: a bound host with `custom-error-display`. -/
theorem setErrorMessage_reports_natively_witness :
    ∃ t, setErrorMessage missingPlatform (boundHost missingPlatform [("custom-error-display", "")])
        "Custom" = .ok t ∧
      t.validationError = some "customError" ∧
      (∀ g, t.internals.validity.flag g = true ↔ g = Flag.customError) ∧
      t.internals.validationMessage = "Custom" ∧
      t.log = (boundHost missingPlatform [("custom-error-display", "")]).log ++
          [.setValidity [("customError", true)] (some "Custom"), .reportValidity] ++
        (if missingPlatform.willValidate
            (boundHost missingPlatform [("custom-error-display", "")]).attrs = true then
          (if (boundHost missingPlatform [("custom-error-display", "")]).inputNode.isSome = true ∧
              (boundHost missingPlatform [("custom-error-display", "")]).customErrorDisplay = true
           then [.invalidFired]
           else [.invalidFired, .nativeReport])
         else []) :=
  setErrorMessage_reports_natively missingPlatform
    (boundHost missingPlatform [("custom-error-display", "")]) "Custom" (by decide)

/-- Counterexample to C16 as stated: two bound hosts that carry `readonly` and are
therefore barred from constraint validation. `setErrorMessage` completes and sets
`customError`, but its `reportValidity()` reports nothing: with `custom-error-display`
no `invalid` event reaches the host, neither dispatched by the class nor fired by the
platform, and without `custom-error-display` no native report is shown. -/
theorem setErrorMessage_barred_reports_nothing :
    ((boundHost barringPlatform [("custom-error-display", ""), ("readonly", "")]).customErrorDisplay
        = true ∧
      completed (setErrorMessage barringPlatform
        (boundHost barringPlatform [("custom-error-display", ""), ("readonly", "")]) "Custom")
        = true ∧
      (state (setErrorMessage barringPlatform
        (boundHost barringPlatform [("custom-error-display", ""), ("readonly", "")])
        "Custom")).internals.validity.customError = true ∧
      dispatched (state (setErrorMessage barringPlatform
        (boundHost barringPlatform [("custom-error-display", ""), ("readonly", "")])
        "Custom")).log = [] ∧
      (state (setErrorMessage barringPlatform
        (boundHost barringPlatform [("custom-error-display", ""), ("readonly", "")])
        "Custom")).log.count .invalidFired = 0) ∧
    ((boundHost barringPlatform [("readonly", "")]).customErrorDisplay = false ∧
      completed (setErrorMessage barringPlatform
        (boundHost barringPlatform [("readonly", "")]) "Custom") = true ∧
      (state (setErrorMessage barringPlatform
        (boundHost barringPlatform [("readonly", "")]) "Custom")).internals.validity.customError
        = true ∧
      (state (setErrorMessage barringPlatform
        (boundHost barringPlatform [("readonly", "")]) "Custom")).log.count .nativeReport = 0) := by
  decide

/-! ## The message of the rewritten constraint -/

theorem foldl_replay_rewrite_attrs (s : Host) (node : InputNode) (N : String)
    (hN : attrGet s.attrs "minlength" = some N) (hP : attrGet s.attrs "pattern" = none) :
    (observedAttributes.foldl replayAttribute { s with inputNode := some node }).attrs =
      match attrGet s.attrs "data-tooshort" with
      | some m =>
        attrSet (attrSet s.attrs "pattern" (".\x7b" ++ N ++ ",\x7d")) "data-patternmismatch" m
      | none => attrSet s.attrs "pattern" (".\x7b" ++ N ++ ",\x7d") := by
  have e : observedAttributes.foldl replayAttribute { s with inputNode := some node } =
      ["maxlength", "pattern", "disabled"].foldl replayAttribute
        (replayAttribute
          (["type", "value", "placeholder", "required", "min", "max"].foldl replayAttribute
            { s with inputNode := some node }) "minlength") := by
    simp only [observedAttributes, List.foldl_cons, List.foldl_nil]
  rw [e]
  generalize hpre : ["type", "value", "placeholder", "required", "min", "max"].foldl replayAttribute
    { s with inputNode := some node } = sPre
  have hattrs : sPre.attrs = s.attrs := by
    rw [← hpre]
    exact foldl_replay_attrs_of_ne_minlength _ _ (by decide)
  have hb : sPre.inputNode.isSome = true := by
    rw [← hpre]
    exact foldl_replay_bound _ _ rfl
  obtain ⟨n, hn⟩ := Option.isSome_iff_exists.mp hb
  have hN1 : attrGet sPre.attrs "minlength" = some N := by rw [hattrs]; exact hN
  have hP1 : hasAttribute sPre.attrs "pattern" = false := by
    rw [hattrs]
    simp [hasAttribute, hP]
  rw [replayAttribute_rewrite sPre n hn N hN1 hP1, foldl_replay_attrs_of_pattern]
  · simp only [hattrs]
  · simp only [hattrs]
    cases attrGet s.attrs "data-tooshort" <;> simp [hasAttribute, attrGet_attrSet]

theorem getLast_trueReasons_valid {v : ValidityState} {f : Flag}
    (h : (trueReasons v).getLast? = some f) : v.valid = false :=
  ValidityState.valid_eq_false_of_flag (mem_trueReasons (List.mem_of_getLast?_eq_some h))

/-- C14, as the code has it: for every host bound with `minlength=N`, no `pattern` and
`data-tooshort=M`, after binding the host's `data-patternmismatch` attribute equals `M`,
so the message `validateInput` resolves for `patternMismatch` is `M`, whatever the inner
control is like; and when the inner control then reports `patternMismatch` as the active
(last true) reason and every true reason of its snapshot resolves to a non-empty
message, `validateInput` completes with `validationError = patternMismatch` and the
validation message `M`. -/
theorem bind_rekeys_tooshort (p : Platform) (s : Host) (node : InputNode) (N M : String)
    (hN : attrGet s.attrs "minlength" = some N) (hP : attrGet s.attrs "pattern" = none)
    (hM : attrGet s.attrs "data-tooshort" = some M) :
    attrGet (state (setInputNode p s node)).attrs "data-patternmismatch" = some M ∧
    ∀ node2,
      specMessage p (state (setInputNode p s node)).attrs node2 Flag.patternMismatch = M ∧
      ((trueReasons (p.validity node2)).getLast? = some Flag.patternMismatch →
        (∀ g ∈ trueReasons (p.validity node2),
          specMessage p (state (setInputNode p s node)).attrs node2 g ≠ "") →
        ∃ u, validateInput p { state (setInputNode p s node) with inputNode := some node2 }
            = .ok u ∧
          u.validationError = some "patternMismatch" ∧
          u.internals.validationMessage = M) := by
  obtain ⟨_, ha⟩ := setInputNode_frame p s node
  have hattr : attrGet (state (setInputNode p s node)).attrs "data-patternmismatch" = some M := by
    rw [ha _ (by decide) (by decide), foldl_replay_rewrite_attrs s node N hN hP, hM]
    simp [attrGet_attrSet]
  clear ha
  generalize state (setInputNode p s node) = t at hattr ⊢
  have hname : "data-" ++ asciiLower Flag.patternMismatch.name = "data-patternmismatch" := by
    decide
  refine ⟨hattr, fun node2 => ⟨?_, fun hlast hm => ?_⟩⟩
  · simp only [specMessage, hname, hattr]
  · have hv := getLast_trueReasons_valid hlast
    have hc := validateInput_of_invalid p { t with inputNode := some node2 } node2 rfl hv hm
    rw [hlast] at hc
    refine ⟨_, hc, rfl, ?_⟩
    simp only [afterPass, written]
    rw [setInvalid_false_specMessage]
    simp only [specMessage, hname, hattr]

/-- Witness of C14 as amended: `minlength=5` with the message of the repository's test,
on a platform whose inner control reports `patternMismatch`. -/
theorem bind_rekeys_tooshort_witness :
    attrGet (boundHost mismatchPlatform
      [("minlength", "5"), ("data-tooshort", "Must have at least 5 characters")]).attrs
      "data-patternmismatch" = some "Must have at least 5 characters" ∧
    ∃ u, validateInput mismatchPlatform
        { boundHost mismatchPlatform
            [("minlength", "5"), ("data-tooshort", "Must have at least 5 characters")] with
          inputNode := some freshNode } = .ok u ∧
      u.validationError = some "patternMismatch" ∧
      u.internals.validationMessage = "Must have at least 5 characters" :=
  ⟨(bind_rekeys_tooshort mismatchPlatform
      (construct [("minlength", "5"), ("data-tooshort", "Must have at least 5 characters")])
      freshNode "5" "Must have at least 5 characters" (by decide) (by decide) (by decide)).1,
    ((bind_rekeys_tooshort mismatchPlatform
      (construct [("minlength", "5"), ("data-tooshort", "Must have at least 5 characters")])
      freshNode "5" "Must have at least 5 characters" (by decide) (by decide) (by decide)).2
      freshNode).2 (by decide) (by decide)⟩

/-- Counterexample to C14 as stated: an e-mail field bound with `minlength=5`, no
`pattern`, `data-tooshort` set to `Too short` and an empty `data-typemismatch`. Binding
re-keys the message under `data-patternmismatch`. Once the inner control holds `abc` it
reports `typeMismatch` and `patternMismatch`, the latter being the last true reason; but
`validateInput` throws on the empty message of `typeMismatch` before it reaches
`patternMismatch`, and the validation message is not `Too short`. -/
theorem bind_rekeyed_message_not_reached :
    attrGet (boundHost typePatternPlatform
      [("type", "email"), ("minlength", "5"), ("data-tooshort", "Too short"),
        ("data-typemismatch", "")]).attrs "data-patternmismatch" = some "Too short" ∧
    (boundHost typePatternPlatform
      [("type", "email"), ("minlength", "5"), ("data-tooshort", "Too short"),
        ("data-typemismatch", "")]).inputNode =
      some { attrs := [("type", "email"), ("pattern", ".\x7b5,\x7d")], value := "",
             focused := false } ∧
    (trueReasons (typePatternPlatform.validity
      { attrs := [("type", "email"), ("pattern", ".\x7b5,\x7d")], value := "abc",
        focused := false, dirty := true })).getLast? = some Flag.patternMismatch ∧
    completed (validateInput typePatternPlatform
      { boundHost typePatternPlatform
          [("type", "email"), ("minlength", "5"), ("data-tooshort", "Too short"),
            ("data-typemismatch", "")] with
        inputNode := some { attrs := [("type", "email"), ("pattern", ".\x7b5,\x7d")],
                            value := "abc", focused := false, dirty := true } }) = false ∧
    (state (validateInput typePatternPlatform
      { boundHost typePatternPlatform
          [("type", "email"), ("minlength", "5"), ("data-tooshort", "Too short"),
            ("data-typemismatch", "")] with
        inputNode := some { attrs := [("type", "email"), ("pattern", ".\x7b5,\x7d")],
                            value := "abc", focused := false, dirty := true } })).validationError
      = some "typeMismatch" ∧
    (state (validateInput typePatternPlatform
      { boundHost typePatternPlatform
          [("type", "email"), ("minlength", "5"), ("data-tooshort", "Too short"),
            ("data-typemismatch", "")] with
        inputNode := some { attrs := [("type", "email"), ("pattern", ".\x7b5,\x7d")],
                            value := "abc", focused := false, dirty := true }
      })).internals.validationMessage = "" := by
  decide

/-! ## The aggregated validity is well formed -/

theorem aggregated_congr {s t : Host} (h1 : t.internals.validity = s.internals.validity)
    (h2 : t.internals.validationMessage = s.internals.validationMessage) (h : Aggregated s) :
    Aggregated t := by
  unfold Aggregated at *
  rw [h1, h2]
  exact h

theorem aggregated_of_internals {s t : Host} (h : t.internals = s.internals)
    (ha : Aggregated s) : Aggregated t :=
  aggregated_congr (by rw [h]) (by rw [h]) ha

theorem aggregated_of_valid {s : Host} (h : s.internals.validity.valid = true) :
    Aggregated s := by
  intro hv
  rw [h] at hv
  exact absurd hv (by simp)

theorem ValidityState.exists_flag_of_not_valid {v : ValidityState} (h : v.valid = false) :
    ∃ f, v.flag f = true := by
  by_contra hne
  have hall : v.valid = true := by
    unfold ValidityState.valid
    rw [List.all_eq_true]
    intro f _
    cases hf : v.flag f with
    | false => rfl
    | true => exact absurd ⟨f, hf⟩ hne
  rw [h] at hall
  exact absurd hall (by simp)

theorem ValidityState.ofFlags_pair_flag (k : String) (g : Flag) :
    (ValidityState.ofFlags [(k, true)]).flag g = decide (k = g.name) := by
  by_cases h : k = g.name <;> simp [ValidityState.ofFlags, ValidityState.flag_ofFn, dictGet, h]

theorem ValidityState.ofFlags_pair_unique {k : String}
    (h : (ValidityState.ofFlags [(k, true)]).valid = false) :
    ∃ f, ∀ g, (ValidityState.ofFlags [(k, true)]).flag g = true ↔ g = f := by
  obtain ⟨f, hf⟩ := ValidityState.exists_flag_of_not_valid h
  rw [ValidityState.ofFlags_pair_flag] at hf
  have hk : k = f.name := by simpa using hf
  refine ⟨f, fun g => ?_⟩
  rw [ValidityState.ofFlags_pair_flag, hk]
  constructor
  · intro hg
    exact (Flag.name_injective (by simpa using hg)).symm
  · intro hg
    simp [hg]

theorem aggregated_setValidity (s : Host) (d : List (String × Bool)) (m : Option String)
    (hd : d = [] ∨ ∃ k, d = [(k, true)]) (h : Aggregated s) :
    Aggregated (state (s.setValidity d m)) := by
  unfold Host.setValidity
  simp only
  split
  · exact aggregated_of_internals rfl h
  · next hcond =>
    simp only [state]
    intro hv
    have hv1 : (ValidityState.ofFlags d).valid = false := hv
    refine ⟨?_, ?_⟩
    · rcases hd with hd | ⟨k, hd⟩
      · subst hd
        rw [ValidityState.ofFlags_nil_valid] at hv1
        exact absurd hv1 (by simp)
      · subst hd
        exact ValidityState.ofFlags_pair_unique hv1
    · show (if (ValidityState.ofFlags d).valid = true then "" else m.getD "") ≠ ""
      rw [hv1]
      simp only [Bool.false_eq_true, if_false]
      intro hm
      exact hcond ⟨hv1, hm⟩

theorem aggregated_afterPass (p : Platform) (s : Host) (node : InputNode) (f : Flag)
    (hm : specMessage p s.attrs node f ≠ "") : Aggregated (afterPass p s node f) := by
  intro _
  refine ⟨⟨f, fun g => ?_⟩, ?_⟩
  · simp [afterPass, written, ValidityState.ofFlags_single_flag]
  · simpa [afterPass, written] using hm

theorem forIn_true_flags_aggregated (p : Platform) (node : InputNode) (v : ValidityState)
    (gs : List Flag) (s : Host) (hn : s.inputNode = some node)
    (ht : ∀ g ∈ gs, v.flag g = true) (h : Aggregated s) :
    Aggregated (state (forIn (validateState p node v) (gs.map Flag.name) s)) := by
  induction gs generalizing s with
  | nil => exact h
  | cons g gs ih =>
    by_cases hm : specMessage p s.attrs node g = ""
    · simp only [List.map_cons, forIn,
        validateState_of_true_empty p node v s g (ht g (List.mem_cons_self _ _)) hm, state]
      exact aggregated_of_internals rfl h
    · have hg := validateState_of_true p node v s g hn (ht g (List.mem_cons_self _ _)) hm
      simp only [List.map_cons, forIn, hg]
      have hn1 : (afterPass p s node g).inputNode = some node := by
        simpa [afterPass, written] using hn
      exact ih (afterPass p s node g) hn1 (fun h hh => ht h (List.mem_cons_of_mem _ hh))
        (aggregated_afterPass p s node g hm)

theorem aggregated_validateInput (p : Platform) (s : Host) (h : Aggregated s) :
    Aggregated (state (validateInput p s)) := by
  unfold validateInput
  cases hn : s.inputNode with
  | none => exact h
  | some node =>
    simp only
    have h0 := sameExceptInvalid_setInvalid s false
    have hn0 : (s.setInvalid false).inputNode = some node := by rw [h0.2.1, hn]
    have ha0 : Aggregated (s.setInvalid false) :=
      aggregated_of_internals (by simp [Host.setInvalid_eq]) h
    cases hv : (p.validity node).valid with
    | false =>
      simp only [if_true]
      rw [forIn_keys p node _ _ hv]
      exact forIn_true_flags_aggregated p node (p.validity node) _ _ hn0
        (fun g hg => mem_trueReasons hg) ha0
    | true =>
      simp only [Bool.true_eq_false, if_false]
      exact aggregated_setValidity _ [] none (Or.inl rfl) ha0

theorem fire_internals (s : Host) (e : Event) : (s.fire e).1.internals = s.internals := by
  unfold Host.fire
  split
  · split
    · rw [invalidListener_fst]
    · split <;> rfl
  · rfl

theorem aggregated_fire (s : Host) (e : Event) (h : Aggregated s) : Aggregated (s.fire e).1 :=
  aggregated_of_internals (fire_internals s e) h

theorem aggregated_logEffect (s : Host) (e : Effect) (h : Aggregated s) :
    Aggregated (s.logEffect e) :=
  aggregated_of_internals rfl h

theorem aggregated_dispatchEvent (s : Host) (e : Event) (h : Aggregated s) :
    Aggregated (s.dispatchEvent e).1 :=
  aggregated_fire _ e (aggregated_logEffect s _ h)

theorem aggregated_fireInvalid (s : Host) (h : Aggregated s) : Aggregated s.fireInvalid.1 :=
  aggregated_fire _ _ (aggregated_logEffect s _ h)

theorem aggregated_checkValidity (p : Platform) (s : Host) (h : Aggregated s) :
    Aggregated (s.checkValidity p).1 := by
  unfold Host.checkValidity
  split
  · exact aggregated_fireInvalid s h
  · exact h

theorem aggregated_reportValidity (p : Platform) (s : Host) (h : Aggregated s) :
    Aggregated (s.reportValidity p).1 := by
  unfold Host.reportValidity
  simp only
  split
  · split
    · exact aggregated_fireInvalid _ (aggregated_logEffect s _ h)
    · exact aggregated_logEffect _ _ (aggregated_fireInvalid _ (aggregated_logEffect s _ h))
  · exact aggregated_logEffect s _ h

theorem aggregated_setAttribute (s : Host) (n v : String) (h : Aggregated s) :
    Aggregated (s.setAttribute n v) :=
  aggregated_of_internals (Host.setAttribute_fields s n v).2.2.2.1 h

theorem aggregated_removeAttribute (s : Host) (n : String) (h : Aggregated s) :
    Aggregated (s.removeAttribute n) :=
  aggregated_of_internals (Host.removeAttribute_fields s n).2.2.2.1 h

theorem aggregated_attributeChangedCallback (s : Host) (n : String) (o v : Option String)
    (h : Aggregated s) : Aggregated (attributeChangedCallback s n o v) :=
  aggregated_of_internals (attributeChangedCallback_fields s n o v).2.2.2.1 h

theorem aggregated_replayAttribute (s : Host) (a : String) (h : Aggregated s) :
    Aggregated (replayAttribute s a) := by
  by_cases h1 : asciiLower a = "required"
  · rw [replayAttribute_of_required s a h1]
    split
    · exact aggregated_of_internals rfl h
    · exact h
  · by_cases h2 : asciiLower a = "minlength"
    · rw [replayAttribute_of_minlength s a h2]
      split
      · exact h
      · next v _ =>
        split
        · exact aggregated_of_internals rfl h
        · have hs1 (f : InputNode → InputNode) :
              Aggregated { s with inputNode := s.inputNode.map f } :=
            aggregated_of_internals rfl h
          have hs2 := aggregated_setAttribute _ "pattern" (".\x7b" ++ v ++ ",\x7d")
            (hs1 (fun n => n.setAttribute "pattern" (".\x7b" ++ v ++ ",\x7d")))
          simp only
          split
          · exact aggregated_setAttribute _ _ _ hs2
          · exact hs2
    · rw [replayAttribute_of_plain s a h1 h2]
      split
      · exact h
      · exact aggregated_of_internals rfl h

theorem aggregated_foldl_replay (l : List String) (s : Host) (h : Aggregated s) :
    Aggregated (l.foldl replayAttribute s) := by
  induction l generalizing s with
  | nil => exact h
  | cons a l ih => exact ih _ (aggregated_replayAttribute s a h)

theorem aggregated_construct (attrs : Attrs) : Aggregated (construct attrs) := by
  apply aggregated_of_valid
  simp only [construct, Host.setInvalid_eq]
  decide

theorem aggregated_setCustomValidity (s : Host) (m : String) (h : Aggregated s) :
    Aggregated (state (setCustomValidity s m)) := by
  unfold setCustomValidity
  simp only
  apply aggregated_setValidity _ _ _ _ h
  split
  · exact Or.inr ⟨_, rfl⟩
  · exact Or.inl rfl

theorem aggregated_setErrorMessage (p : Platform) (s : Host) (m : String) (h : Aggregated s) :
    Aggregated (state (setErrorMessage p s m)) := by
  unfold setErrorMessage
  have h1 : Aggregated { s with validationError := some "customError" } :=
    aggregated_of_internals rfl h
  have h2 := aggregated_setCustomValidity _ m h1
  simp only
  cases hc : setCustomValidity { s with validationError := some "customError" } m with
  | error s2 => simpa [hc, state] using h2
  | ok s2 =>
    rw [hc] at h2
    exact aggregated_reportValidity p s2 h2

theorem aggregated_setValue (p : Platform) (s : Host) (value : String) (h : Aggregated s) :
    Aggregated (state (setValue p s value)) := by
  unfold setValue
  split
  · exact h
  · exact aggregated_validateInput p _ (aggregated_congr rfl rfl h)

theorem aggregated_changeListener (p : Platform) (s : Host) (e : Event) (h : Aggregated s) :
    Aggregated (state (changeListener p s e)) := by
  unfold changeListener
  have h1 : Aggregated (if s.validateOnChange = true then { s with pristine := false } else s) := by
    split
    · exact aggregated_of_internals rfl h
    · exact h
  simp only
  split
  · exact h1
  · next node hn =>
    have h2 := aggregated_setValue p _ (node.getValue p) h1
    cases hc : setValue p (if s.validateOnChange = true then { s with pristine := false } else s)
        (node.getValue p) with
    | error s2 => simpa [hc, state] using h2
    | ok s2 =>
      rw [hc] at h2
      exact aggregated_validateInput p _ (aggregated_dispatchEvent s2 _ h2)

theorem aggregated_setInputNode (p : Platform) (s : Host) (node : InputNode)
    (h : Aggregated s) : Aggregated (state (setInputNode p s node)) := by
  unfold setInputNode
  have h1 : Aggregated { s with inputNode := some node } := aggregated_of_internals rfl h
  have h2 := aggregated_foldl_replay observedAttributes _ h1
  apply aggregated_validateInput
  split
  · exact h2
  · exact aggregated_setAttribute _ "tabindex" "0" h2

theorem aggregated_setDisabled (s : Host) (b : Bool) (h : Aggregated s) :
    Aggregated (state (setDisabled s b)) := by
  unfold setDisabled
  split
  · exact h
  · next node hn =>
    have h1 (n : InputNode) : Aggregated { s with inputNode := some n } :=
      aggregated_of_internals rfl h
    cases b with
    | true => exact aggregated_setAttribute _ "disabled" "" (h1 _)
    | false => exact aggregated_removeAttribute _ "disabled" (h1 _)

theorem aggregated_setDefaultValue (s : Host) (value : String) (h : Aggregated s) :
    Aggregated (state (setDefaultValue s value)) := by
  unfold setDefaultValue
  split
  · exact h
  · next node hn =>
    have h1 : Aggregated { s with inputNode := some (node.setAttribute "value" value) } :=
      aggregated_of_internals rfl h
    exact aggregated_setAttribute _ "value" value h1

theorem reachable_aggregated (p : Platform) (s : Host) (h : Reachable p s) : Aggregated s := by
  induction h with
  | construct attrs => exact aggregated_construct attrs
  | bind s node _ _ ih => exact aggregated_setInputNode p s node ih
  | setAttribute s name value _ _ ih => exact aggregated_setAttribute s name value ih
  | removeAttribute s name _ _ ih => exact aggregated_removeAttribute s name ih
  | attributeChanged s name o v _ ih => exact aggregated_attributeChangedCallback s name o v ih
  | innerMutate s node node1 _ _ ih => exact aggregated_of_internals rfl ih
  | innerDispatch s e _ ih =>
    unfold inputNodeDispatchEvent
    split
    · exact aggregated_changeListener p s e ih
    · exact ih
  | setValue s value _ ih => exact aggregated_setValue p s value ih
  | validateInput s _ ih => exact aggregated_validateInput p s ih
  | dispatchEvent s e _ ih => exact aggregated_dispatchEvent s e ih
  | checkValidity s _ ih => exact aggregated_checkValidity p s ih
  | reportValidity s _ ih => exact aggregated_reportValidity p s ih
  | setCustomValidity s m _ ih => exact aggregated_setCustomValidity s m ih
  | setErrorMessage s m _ ih => exact aggregated_setErrorMessage p s m ih
  | formReset s _ ih => exact aggregated_setValue p s _ ih
  | setDisabled s b _ ih => exact aggregated_setDisabled s b ih
  | setDefaultValue s value _ ih => exact aggregated_setDefaultValue s value ih

/-- C17: in every state a host reaches through the operations of the class, in
particular after `validateInput`, `setCustomValidity` or `setErrorMessage`, an aggregated
validity that reports invalid has exactly one reason set and a non-empty message; this
also holds when the host carries an empty `data-<reason>` attribute, because
`setValidity` refuses the empty message (it throws and leaves the aggregated validity as
it was). And when the inner snapshot of a bound host is valid, `validateInput` leaves no
reason set in the aggregated validity and an empty message. -/
theorem aggregated_validity_well_formed (p : Platform) (s : Host) (h : Reachable p s) :
    (s.internals.validity.valid = false →
      (∃ f, ∀ g, s.internals.validity.flag g = true ↔ g = f) ∧
      s.internals.validationMessage ≠ "") ∧
    (∀ node, s.inputNode = some node → (p.validity node).valid = true →
      (∀ g, (state (validateInput p s)).internals.validity.flag g = false) ∧
      (state (validateInput p s)).internals.validationMessage = "") := by
  refine ⟨reachable_aggregated p s h, fun node hn hv => ?_⟩
  rw [validateInput_of_valid p s node hn hv]
  refine ⟨fun g => ?_, rfl⟩
  simp [state, ValidityState.ofFlags, ValidityState.flag_ofFn, dictGet]

/-- Witness of C17: a bound required field whose aggregated validity reports invalid,
and a bound required field carrying an empty `data-valuemissing`, on which the validation
of the binding threw. -/
theorem aggregated_validity_well_formed_witness :
    ((boundHost missingPlatform [("required", "")]).internals.validity.valid = false ∧
      ((boundHost missingPlatform [("required", "")]).internals.validity.valid = false →
        (∃ f, ∀ g, (boundHost missingPlatform [("required", "")]).internals.validity.flag g = true
          ↔ g = f) ∧
        (boundHost missingPlatform [("required", "")]).internals.validationMessage ≠ "")) ∧
    (attrGet (boundHost missingPlatform [("required", ""), ("data-valuemissing", "")]).attrs
        "data-valuemissing" = some "" ∧
      completed (setInputNode missingPlatform
        (construct [("required", ""), ("data-valuemissing", "")]) freshNode) = false ∧
      ((boundHost missingPlatform
          [("required", ""), ("data-valuemissing", "")]).internals.validity.valid = false →
        (∃ f, ∀ g, (boundHost missingPlatform
            [("required", ""), ("data-valuemissing", "")]).internals.validity.flag g = true
          ↔ g = f) ∧
        (boundHost missingPlatform
          [("required", ""), ("data-valuemissing", "")]).internals.validationMessage ≠ "")) :=
  ⟨⟨by decide,
      (aggregated_validity_well_formed missingPlatform (boundHost missingPlatform [("required", "")])
        (Reachable.bind _ _ (Reachable.construct _) rfl)).1⟩,
    by decide, by decide,
    (aggregated_validity_well_formed missingPlatform
      (boundHost missingPlatform [("required", ""), ("data-valuemissing", "")])
      (Reachable.bind _ _ (Reachable.construct _) rfl)).1⟩

/-! ## The value of the inner control -/

theorem valueMode_attrSet_value (a : Attrs) (v : String) :
    valueMode (attrSet a "value" v) = valueMode a := by
  simp [valueMode, attrGet_attrSet]

theorem InputNode.getValue_setValue (p : Platform) (n : InputNode) (X : String)
    (hf : valueMode n.attrs ≠ .filename) :
    (n.setValue p X).getValue p =
      if valueMode n.attrs = .value then p.sanitize n.attrs X else X := by
  cases hm : valueMode n.attrs with
  | value => simp [InputNode.setValue, InputNode.getValue, hm]
  | default =>
    simp [InputNode.setValue, InputNode.getValue, hm, InputNode.setAttribute,
      valueMode_attrSet_value, attrGet_attrSet]
  | defaultOn =>
    simp [InputNode.setValue, InputNode.getValue, hm, InputNode.setAttribute,
      valueMode_attrSet_value, attrGet_attrSet]
  | filename => exact absurd hm hf

theorem setValue_frame (p : Platform) (s : Host) (node : InputNode) (X : String)
    (hn : s.inputNode = some node) :
    (state (setValue p s X)).pristine = s.pristine ∧
    (state (setValue p s X)).inputNode = some (node.setValue p X) ∧
    (state (setValue p s X)).internals.formValue = some X := by
  unfold setValue
  simp only [hn]
  have hf := (validateInput_state p
    { s with
        inputNode := some (node.setValue p X)
        internals := { s.internals with formValue := some X } }).1
  exact ⟨hf.1, hf.2.1, hf.2.2.1⟩

/-! ## Value round trip -/

/-- C20, as the code has it: for every bound host whose inner control is not a file
control and every value `X`, after the setter `value` ran with `X` (whether or not the
validation it ends with completes) the submission value of the form-association object
is `X`, and reading `value` returns what the inner control made of `X`: the result of its
value sanitization algorithm in the value mode, `X` itself in the default modes. Reading
returns `X` whenever the sanitization leaves `X` unchanged. This holds whatever the
pristine flag and the validity state are. -/
theorem setValue_roundtrip (p : Platform) (s : Host) (node : InputNode) (X : String)
    (hn : s.inputNode = some node) (hf : valueMode node.attrs ≠ .filename) :
    (state (setValue p s X)).internals.formValue = some X ∧
    getValue p (state (setValue p s X)) =
      some (if valueMode node.attrs = .value then p.sanitize node.attrs X else X) ∧
    (p.sanitize node.attrs X = X → getValue p (state (setValue p s X)) = some X) := by
  have h := setValue_frame p s node X hn
  have hg : getValue p (state (setValue p s X)) =
      some (if valueMode node.attrs = .value then p.sanitize node.attrs X else X) := by
    simp only [getValue]
    rw [h.2.1]
    simp [InputNode.getValue_setValue p node X hf]
  refine ⟨h.2.2, hg, fun hx => ?_⟩
  rw [hg, hx]
  simp

/-- Witness of C20 as amended: a touched, invalid required field is given the value
`John`, which its sanitization leaves unchanged. -/
theorem setValue_roundtrip_witness :
    (state (setValue missingPlatform (touchedHost missingPlatform [("required", "")])
      "John")).internals.formValue = some "John" ∧
    getValue missingPlatform (state (setValue missingPlatform
      (touchedHost missingPlatform [("required", "")]) "John")) = some "John" :=
  ⟨(setValue_roundtrip missingPlatform (touchedHost missingPlatform [("required", "")])
      { attrs := [("required", "true")], value := "", focused := false, dirty := true } "John"
      (by decide) (by decide)).1,
    (setValue_roundtrip missingPlatform (touchedHost missingPlatform [("required", "")])
      { attrs := [("required", "true")], value := "", focused := false, dirty := true } "John"
      (by decide) (by decide)).2.2 rfl⟩

/-- Counterexample to C20 as stated: on a bound number field the value `abc` is given to
the form-association object as it is, while the inner control sanitizes it to the empty
string; reading `value` returns the empty string, not `abc`. -/
theorem setValue_number_not_roundtrip :
    innerAttr (boundHost numberPlatform [("type", "number")]) "type" = some "number" ∧
    completed (setValue numberPlatform (boundHost numberPlatform [("type", "number")]) "abc")
      = true ∧
    getValue numberPlatform (state (setValue numberPlatform
      (boundHost numberPlatform [("type", "number")]) "abc")) = some "" ∧
    (state (setValue numberPlatform
      (boundHost numberPlatform [("type", "number")]) "abc")).internals.formValue = some "abc" := by
  decide

/-! ## Form reset -/

/-- C6, as the code has it: for every bound host whose inner control is not a file
control, after `formResetCallback` the submission value is the declared default (the
host's `value` attribute, or the empty string when absent) and the host's value is what
the inner control made of the declared default: the result of its value sanitization
algorithm in the value mode, the declared default itself in the default modes, hence the
declared default whenever the sanitization leaves it unchanged. The pristine flag is what
it was before: form reset does not restore `pristine` to true. -/
theorem formReset_restores_value_only (p : Platform) (s : Host) (node : InputNode)
    (hn : s.inputNode = some node) (hf : valueMode node.attrs ≠ .filename) :
    (state (formResetCallback p s)).internals.formValue = some (declaredDefault s.attrs) ∧
    getValue p (state (formResetCallback p s)) =
      some (if valueMode node.attrs = .value then p.sanitize node.attrs (declaredDefault s.attrs)
        else declaredDefault s.attrs) ∧
    (p.sanitize node.attrs (declaredDefault s.attrs) = declaredDefault s.attrs →
      getValue p (state (formResetCallback p s)) = some (declaredDefault s.attrs)) ∧
    (state (formResetCallback p s)).pristine = s.pristine := by
  unfold formResetCallback
  simp only [formReset_default]
  have h := setValue_frame p s node (declaredDefault s.attrs) hn
  have hg : getValue p (state (setValue p s (declaredDefault s.attrs))) =
      some (if valueMode node.attrs = .value then p.sanitize node.attrs (declaredDefault s.attrs)
        else declaredDefault s.attrs) := by
    simp only [getValue]
    rw [h.2.1]
    simp [InputNode.getValue_setValue p node _ hf]
  refine ⟨h.2.2, hg, fun hx => ?_, h.1⟩
  rw [hg, hx]
  simp

/-- Witness of C6 as amended: a touched required field whose `value` attribute is
`John`, which its sanitization leaves unchanged. -/
theorem formReset_restores_value_only_witness :
    (state (formResetCallback missingPlatform
      (touchedHost missingPlatform [("required", ""), ("value", "John")]))).internals.formValue
      = some "John" ∧
    getValue missingPlatform (state (formResetCallback missingPlatform
      (touchedHost missingPlatform [("required", ""), ("value", "John")]))) = some "John" ∧
    (state (formResetCallback missingPlatform
      (touchedHost missingPlatform [("required", ""), ("value", "John")]))).pristine =
      (touchedHost missingPlatform [("required", ""), ("value", "John")]).pristine :=
  ⟨(formReset_restores_value_only missingPlatform
      (touchedHost missingPlatform [("required", ""), ("value", "John")])
      { attrs := [("value", "John"), ("required", "true")], value := "John", focused := false,
        dirty := true }
      (by decide) (by decide)).1,
    (formReset_restores_value_only missingPlatform
      (touchedHost missingPlatform [("required", ""), ("value", "John")])
      { attrs := [("value", "John"), ("required", "true")], value := "John", focused := false,
        dirty := true }
      (by decide) (by decide)).2.2.1 rfl,
    (formReset_restores_value_only missingPlatform
      (touchedHost missingPlatform [("required", ""), ("value", "John")])
      { attrs := [("value", "John"), ("required", "true")], value := "John", focused := false,
        dirty := true }
      (by decide) (by decide)).2.2.2⟩

/-- Counterexample to C6 as stated: a bound host that is no longer pristine stays
non-pristine after `formResetCallback`; and on a bound number field whose declared
default is `abc`, the host's value after `formResetCallback` is the empty string the
inner control sanitizes `abc` to, not the declared default. -/
theorem formReset_keeps_pristine_false :
    ((touchedHost missingPlatform [("required", ""), ("value", "John")]).inputNode.isSome = true ∧
      (touchedHost missingPlatform [("required", ""), ("value", "John")]).pristine = false ∧
      (state (formResetCallback missingPlatform
        (touchedHost missingPlatform [("required", ""), ("value", "John")]))).pristine = false) ∧
    (declaredDefault (boundHost numberPlatform [("type", "number"), ("value", "abc")]).attrs
        = "abc" ∧
      completed (formResetCallback numberPlatform
        (boundHost numberPlatform [("type", "number"), ("value", "abc")])) = true ∧
      getValue numberPlatform (state (formResetCallback numberPlatform
        (boundHost numberPlatform [("type", "number"), ("value", "abc")]))) = some "") := by
  decide

end FormElementMixin
